import Mathlib

set_option maxHeartbeats 1000000

namespace EduCpu

/-!
Shallow embedding of the EDU-CPU toolchain (src/simulator.py and
src/assembler.py).  Machine bytes are `Nat` with explicit `% 256` masking
at the places the Python source masks with `& 0xFF`; Python's unbounded
signed ints (assembler pc, symbol values, branch displacements) are `Int`.
-/

/-! ## Simulator: registers and decode tables (src/simulator.py) -/

inductive Reg : Type
  | A
  | R0
  | R1
  deriving DecidableEq

inductive ALUOp : Type
  | ADD
  | SUB
  | AND
  | OR
  | XOR
  | CMP
  deriving DecidableEq

/-- LD_OPCODES: IIIII code to primary register (mnemonic is always "LD"). -/
def ldPrimary : Nat → Option Reg
  | 0 => some .A
  | 1 => some .R0
  | 2 => some .R1
  | _ => none

/-- ST_OPCODES: IIIII code to primary register (mnemonic is always "ST"). -/
def stPrimary : Nat → Option Reg
  | 3 => some .A
  | 4 => some .R0
  | 5 => some .R1
  | _ => none

/-- ALU_OPCODES: IIIII code to ALU operation. -/
def aluLookup : Nat → Option ALUOp
  | 6 => some .ADD
  | 7 => some .SUB
  | 8 => some .AND
  | 9 => some .OR
  | 10 => some .XOR
  | 11 => some .CMP
  | _ => none

/-- BRANCH_CONDITION: opcode byte to branch condition on (z, c).
0x68 = BZ, 0x69 = BNZ, 0x6A = BC, 0x6B = BNC. -/
def branchCond : Nat → Option (Bool → Bool → Bool)
  | 0x68 => some fun z _ => z
  | 0x69 => some fun z _ => !z
  | 0x6A => some fun _ c => c
  | 0x6B => some fun _ c => !c
  | _ => none

/-- REG_MODE_MAP: for each primary register, the register selected by the
R bit (always called with an R bit in {0, 1}). -/
def regModeMap : Reg → Nat → Reg
  | .A, 0 => .R0
  | .A, _ => .R1
  | .R0, 0 => .A
  | .R0, _ => .R1
  | .R1, 0 => .A
  | .R1, _ => .R0

/-- REG_ENCODING: PUSH/POP/INC/DEC register encoding from bits 1-0. -/
def regEncoding : Nat → Option Reg
  | 0 => some .A
  | 1 => some .R0
  | 2 => some .R1
  | _ => none

/-- Python's `x & 0xFF` on a (possibly negative) int equals `x mod 256`. -/
def intMask8 (x : Int) : Nat := (x % 256).toNat

/-! ## Simulator: CPU state -/

inductive Fault : Type
  | pcUnloaded (addr : Nat)
  | stImmediate
  | stackOverflow (sp : Nat)
  | stackUnderflow (sp : Nat)
  | invalidPush (op addr : Nat)
  | invalidPop (op addr : Nat)
  | invalidInc (op addr : Nat)
  | invalidDec (op addr : Nat)
  | invalidOpcode (op addr : Nat)
  deriving DecidableEq

/-- The CPU state of class CPU.  `out` records the bytes written to the
memory-mapped output port 0xFF (Python writes them to stdout). -/
structure CPUState : Type where
  a : Nat
  r0 : Nat
  r1 : Nat
  pc : Nat
  z : Bool
  c : Bool
  sp : Nat
  stack : List Nat
  mem : Nat → Nat
  loaded : Nat → Bool
  halted : Bool
  cycles : Nat
  out : List Nat

/-- CPU._get_reg -/
def getReg (name : Reg) (s : CPUState) : Nat :=
  match name with
  | .A => s.a
  | .R0 => s.r0
  | .R1 => s.r1

/-- CPU._set_reg (masks the value to 8 bits) -/
def setReg (name : Reg) (val : Nat) (s : CPUState) : CPUState :=
  match name with
  | .A => { s with a := val % 256 }
  | .R0 => { s with r0 := val % 256 }
  | .R1 => { s with r1 := val % 256 }

/-- self.r[r_bit] (r_bit is always 0 or 1) -/
def rIdx (i : Nat) (s : CPUState) : Nat :=
  if i = 0 then s.r0 else s.r1

/-- CPU.fetch -/
def fetch (s : CPUState) : Nat × CPUState :=
  (s.mem s.pc, { s with pc := (s.pc + 1) % 256 })

/-- CPU.mem_read -/
def memRead (addr : Nat) (s : CPUState) : Nat :=
  s.mem (addr % 256)

/-- CPU.mem_write: stores the masked byte; a write to IO_ADDR = 0xFF is
also appended to the output stream. -/
def memWrite (addr val : Nat) (s : CPUState) : CPUState :=
  let addr2 := addr % 256
  let val2 := val % 256
  let s2 := { s with mem := fun i => if i = addr2 then val2 else s.mem i }
  if addr2 = 0xFF then { s2 with out := s2.out ++ [val2] } else s2

/-- CPU.push (STACK_DEPTH = 4) -/
def push (val : Nat) (s : CPUState) : Except Fault CPUState :=
  if 4 ≤ s.sp then .error (.stackOverflow s.sp)
  else .ok { s with stack := s.stack.set s.sp (val % 256), sp := s.sp + 1 }

/-- CPU.pop (list indexing cannot fail in the source since SP stays in
[0,4]; `getD` with default 0 mirrors that) -/
def pop (s : CPUState) : Except Fault (Nat × CPUState) :=
  if s.sp ≤ 0 then .error (.stackUnderflow s.sp)
  else .ok (s.stack.getD (s.sp - 1) 0, { s with sp := s.sp - 1 })

/-- CPU.set_zc: flags from a 9-bit result (bit 8 = carry). -/
def setZc (result : Nat) (s : CPUState) : CPUState :=
  { s with z := result % 256 == 0, c := result.testBit 8 }

/-- CPU.set_z_only -/
def setZOnly (val : Nat) (s : CPUState) : CPUState :=
  { s with z := val % 256 == 0 }

/-- CPU.set_z_clear_c -/
def setZClearC (val : Nat) (s : CPUState) : CPUState :=
  { s with z := val % 256 == 0, c := false }

/-- CPU.resolve_source.  `mm` is always `opcode % 4`, so the final branch
is the mm = 3 (indexed) case. -/
def resolveSource (mm rBit : Nat) (primaryReg : Reg) (s : CPUState) :
    Nat × CPUState :=
  if mm = 0 then
    fetch s
  else if mm = 1 then
    (getReg (regModeMap primaryReg rBit) s, s)
  else if mm = 2 then
    let (addr, s1) := fetch s
    (memRead addr s1, s1)
  else
    let (offset, s1) := fetch s
    (memRead ((rIdx rBit s1 + offset) % 256) s1, s1)

/-- CPU.resolve_dest.  mm = 0 (immediate) is invalid for ST. -/
def resolveDest (mm rBit : Nat) (primaryReg : Reg) (value : Nat)
    (s : CPUState) : Except Fault CPUState :=
  if mm = 0 then
    .error .stImmediate
  else if mm = 1 then
    .ok (setReg (regModeMap primaryReg rBit) value s)
  else if mm = 2 then
    let (addr, s1) := fetch s
    .ok (memWrite addr value s1)
  else
    let (offset, s1) := fetch s
    .ok (memWrite ((rIdx rBit s1 + offset) % 256) value s1)

/-- The six ALU execution branches of CPU.step (src is the resolved
source value, flags exactly as in the source). -/
def aluExec (op : ALUOp) (src : Nat) (s : CPUState) : CPUState :=
  match op with
  | .ADD =>
      let result := s.a + src
      let s1 := setZc result s
      { s1 with a := result % 256 }
  | .SUB =>
      let a2 := intMask8 ((s.a : Int) - src)
      { s with c := decide (src ≤ s.a), a := a2, z := a2 == 0 }
  | .AND =>
      let a2 := s.a.land src
      setZClearC a2 { s with a := a2 }
  | .OR =>
      let a2 := s.a.lor src
      setZClearC a2 { s with a := a2 }
  | .XOR =>
      let a2 := s.a.xor src
      setZClearC a2 { s with a := a2 }
  | .CMP =>
      { s with c := decide (src ≤ s.a),
               z := intMask8 ((s.a : Int) - src) == 0 }

/-- The body of CPU.step between the fetch and the final
`self.cycles += 1` (every Python `raise RuntimeError` becomes `.error`). -/
def execInstr (s0 : CPUState) : Except Fault CPUState :=
  let pcBefore := s0.pc
  let (opcode, s) := fetch s0
  let iiiii := opcode / 8 % 32
  let rBit := opcode / 4 % 2
  let mm := opcode % 4
  match ldPrimary iiiii with
  | some p =>
      let (value, s1) := resolveSource mm rBit p s
      .ok (setReg p value s1)
  | none =>
  match stPrimary iiiii with
  | some p =>
      resolveDest mm rBit p (getReg p s) s
  | none =>
  match aluLookup iiiii with
  | some op =>
      let (src, s1) := resolveSource mm rBit .A s
      .ok (aluExec op src s1)
  | none =>
  if opcode = 0x60 then
    let (addr, s1) := fetch s
    .ok { s1 with pc := addr }
  else
  match branchCond opcode with
  | some cond =>
      let (dispByte, s1) := fetch s
      let disp : Int := if dispByte < 128 then (dispByte : Int)
                        else (dispByte : Int) - 256
      if cond s1.z s1.c then .ok { s1 with pc := intMask8 ((s1.pc : Int) + disp) }
      else .ok s1
  | none =>
  if opcode = 0x70 then
    let (addr, s1) := fetch s
    match push s1.pc s1 with
    | .error f => .error f
    | .ok s2 => .ok { s2 with pc := addr }
  else if opcode = 0x78 then
    match pop s with
    | .error f => .error f
    | .ok (v, s1) => .ok { s1 with pc := v }
  else if iiiii = 16 then
    match regEncoding mm with
    | some r => push (getReg r s) s
    | none => .error (.invalidPush opcode pcBefore)
  else if iiiii = 17 then
    match regEncoding mm with
    | some r =>
        match pop s with
        | .error f => .error f
        | .ok (v, s1) => .ok (setReg r v s1)
    | none => .error (.invalidPop opcode pcBefore)
  else if iiiii = 18 then
    match regEncoding mm with
    | some r =>
        let val := (getReg r s + 1) % 256
        .ok (setZOnly val (setReg r val s))
    | none => .error (.invalidInc opcode pcBefore)
  else if iiiii = 19 then
    match regEncoding mm with
    | some r =>
        let val := intMask8 ((getReg r s : Int) - 1)
        .ok (setZOnly val (setReg r val s))
    | none => .error (.invalidDec opcode pcBefore)
  else if opcode = 0xA0 then
    .ok s
  else if opcode = 0xA8 then
    .ok { s with halted := true }
  else
    .error (.invalidOpcode opcode pcBefore)

/-- CPU.step: returns (not halted, new state) on success. -/
def step (s : CPUState) : Except Fault (Bool × CPUState) :=
  if s.halted then .ok (false, s)
  else if s.loaded s.pc = false then .error (.pcUnloaded s.pc)
  else
    match execInstr s with
    | .error f => .error f
    | .ok s2 => .ok (!s2.halted, { s2 with cycles := s2.cycles + 1 })

lemma setReg_cycles (r : Reg) (v : Nat) (s : CPUState) :
    (setReg r v s).cycles = s.cycles := by
  cases r <;> rfl

lemma setReg_loaded (r : Reg) (v : Nat) (s : CPUState) :
    (setReg r v s).loaded = s.loaded := by
  cases r <;> rfl

lemma aluExec_cycles (op : ALUOp) (src : Nat) (s : CPUState) :
    (aluExec op src s).cycles = s.cycles := by
  cases op <;> rfl

lemma aluExec_loaded (op : ALUOp) (src : Nat) (s : CPUState) :
    (aluExec op src s).loaded = s.loaded := by
  cases op <;> rfl

/-- execInstr changes neither the cycle counter nor the loaded set. -/
lemma execInstr_frame (s s2 : CPUState) (h : execInstr s = .ok s2) :
    s2.cycles = s.cycles ∧ s2.loaded = s.loaded := by
  unfold execInstr resolveSource resolveDest push pop memWrite memRead
    setZOnly at h
  unfold fetch at h
  repeat' first
    | dsimp only at h
    | split at h
  all_goals cases h
  all_goals refine ⟨?_, ?_⟩
  all_goals first
    | rfl
    | (rw [setReg_cycles]; done)
    | (rw [setReg_loaded]; done)
    | (rw [aluExec_cycles]; done)
    | (rw [aluExec_loaded]; done)
    | (rename_i s2x heq
       split at heq <;>
         (cases heq
          try first
            | rfl
            | (rw [setReg_cycles]; done)
            | (rw [setReg_loaded]; done)))

/-- A successful non-halting step increments the cycle counter by one. -/
lemma step_ok_true_cycles (s s2 : CPUState) (h : step s = .ok (true, s2)) :
    s2.cycles = s.cycles + 1 := by
  unfold step at h
  split at h
  · cases h
  · split at h
    · cases h
    · split at h
      · cases h
      · rename_i s3 heq
        rw [Except.ok.injEq, Prod.mk.injEq] at h
        obtain ⟨hb, hs2⟩ := h
        subst hs2
        show s3.cycles + 1 = s.cycles + 1
        rw [(execInstr_frame s s3 heq).1]

/-- CPU.run: the while loop of the source, returning the exit code.  The
loop body is `step`; a RuntimeError yields 1; after the loop (normal exit
or break) the source returns 1 when `cycles >= max_cycles` and 0
otherwise. -/
def run (maxCycles : Nat) (s : CPUState) : Nat :=
  if s.cycles < maxCycles then
    match hs : step s with
    | .error _ => 1
    | .ok (cont, s2) =>
      if cont then run maxCycles s2
      else if maxCycles ≤ s2.cycles then 1 else 0
  else if maxCycles ≤ s.cycles then 1 else 0
termination_by maxCycles - s.cycles
decreasing_by
  rename_i hc
  have := step_ok_true_cycles s s2 (by rw [← hc]; exact hs)
  omega

/-! ## Assembler: Python string helpers (src/assembler.py works on `str`;
here strings are `List Char`) -/

/-- Convenience: a Lean string literal as a character list. -/
def chars (s : String) : List Char := s.toList

/-- The ASCII whitespace characters recognized by Python's str.strip /
str.split / the regex class \s (the source only ever sees ASCII text). -/
def isPySpace (c : Char) : Bool :=
  c = ' ' || c = '\t' || c = '\n' || c = '\r' || c = '\x0b' || c = '\x0c'

/-- Python str.strip() -/
def pyStrip (l : List Char) : List Char :=
  ((l.dropWhile isPySpace).reverse.dropWhile isPySpace).reverse

/-- Python str.strip(set): strip any of the given characters from both
ends (used for item.strip() with the quote characters). -/
def pyStripSet (set : List Char) (l : List Char) : List Char :=
  ((l.dropWhile set.contains).reverse.dropWhile set.contains).reverse

/-- Python str.split(sep) with a one-character separator (full split). -/
def splitChar (sep : Char) : List Char → List (List Char)
  | [] => [[]]
  | c :: rest =>
    match splitChar sep rest with
    | h :: t => if c = sep then [] :: h :: t else (c :: h) :: t
    | [] => if c = sep then [[], []] else [[c]]

/-- Python str.split(sep, 1): text before the first separator, and the
text after it when the separator occurs. -/
def splitOnceChar (sep : Char) : List Char → List Char × Option (List Char)
  | [] => ([], none)
  | c :: rest =>
    if c = sep then ([], some rest)
    else
      let (a, b) := splitOnceChar sep rest
      (c :: a, b)

/-- Python str.split(None, 1): first whitespace-delimited token and the
remainder (with the whitespace run after the token removed); `none` when
the string holds no token at all. -/
def splitWsOnce (l : List Char) : Option (List Char × List Char) :=
  let l1 := l.dropWhile isPySpace
  if l1.isEmpty then none
  else
    some (l1.takeWhile (fun c => !isPySpace c),
      (l1.dropWhile (fun c => !isPySpace c)).dropWhile isPySpace)

/-- Python truthiness of the optional operand-text strings (`if text:`). -/
def optNonempty : Option (List Char) → Bool
  | none => false
  | some l => !l.isEmpty

/-! ## Assembler: string escapes (decode_string) -/

inductive DecErr : Type
  | unknownEscape (c : Char)
  | nonAscii (c : Char)
  deriving DecidableEq

/-- ESCAPE_MAP -/
def escapeMap : Char → Option Nat
  | 'n' => some 0x0A
  | 't' => some 0x09
  | 'r' => some 0x0D
  | '0' => some 0x00
  | '\\' => some 0x5C
  | _ => none

/-- decode_string: decode escape sequences, reject non-ASCII characters.
A single backslash at the very end of the string is not an escape (the
source requires `i + 1 < len(s)`) and falls through to the plain-char
path. -/
def decodeString : List Char → Except DecErr (List Nat)
  | [] => .ok []
  | '\\' :: ch :: rest =>
    (match escapeMap ch with
     | some b => (decodeString rest).map (fun l => b :: l)
     | none => .error (.unknownEscape ch))
  | c :: rest =>
    if c.toNat > 0x7F then .error (.nonAscii c)
    else (decodeString rest).map (fun l => c.toNat :: l)

/-! ## Assembler: number literals (parse_number)

Python's `int(s, base)` raises an uncaught ValueError in parse_number for
a malformed literal that carries a valid `0x`/`0b` prefix; that exception
(and the later `None - int` TypeError in pass 2) is modelled by `PyErr`.
-/

inductive PyErr : Type
  | valueError
  | typeError
  deriving DecidableEq

def hexDigitVal (c : Char) : Option Nat :=
  if '0' ≤ c ∧ c ≤ '9' then some (c.toNat - 48)
  else if 'a' ≤ c ∧ c ≤ 'f' then some (c.toNat - 87)
  else if 'A' ≤ c ∧ c ≤ 'F' then some (c.toNat - 55)
  else none

def decDigitVal (c : Char) : Option Nat :=
  if '0' ≤ c ∧ c ≤ '9' then some (c.toNat - 48) else none

def binDigitVal (c : Char) : Option Nat :=
  if c = '0' then some 0 else if c = '1' then some 1 else none

/-- Digits of `int(s, base)` after the first digit: single underscores are
allowed between digits only. -/
def digitsGo (dv : Char → Option Nat) (base : Nat) : Nat → List Char → Option Nat
  | acc, [] => some acc
  | acc, '_' :: c :: rest =>
    (match dv c with
     | some d => digitsGo dv base (acc * base + d) rest
     | none => none)
  | acc, c :: rest =>
    (match dv c with
     | some d => digitsGo dv base (acc * base + d) rest
     | none => none)

/-- A non-empty digit group with underscore separators. -/
def pyDigits (dv : Char → Option Nat) (base : Nat) : List Char → Option Nat
  | c :: rest =>
    (match dv c with
     | some d => digitsGo dv base d rest
     | none => none)
  | [] => none

/-- `int(s, base)` for a string already known to start with the two-char
base prefix: the prefix may be followed by one underscore, then digits. -/
def pyIntAfterBasePfx (dv : Char → Option Nat) (base : Nat) :
    List Char → Option Nat
  | '_' :: r => pyDigits dv base r
  | l => pyDigits dv base l

/-- `int(s)` (base 10) on a stripped string: optional sign, then digits. -/
def pyIntDec : List Char → Option Int
  | '+' :: r => (pyDigits decDigitVal 10 r).map (fun n => (n : Int))
  | '-' :: r => (pyDigits decDigitVal 10 r).map (fun n => -(n : Int))
  | l => (pyDigits decDigitVal 10 l).map (fun n => (n : Int))

/-- Dict lookup (symbol table is an association list keyed by name). -/
def lookupAssoc (m : List (List Char × Int)) (k : List Char) : Option Int :=
  match m with
  | [] => none
  | (k2, v) :: rest => if k2 = k then some v else lookupAssoc rest k

/-- Dict assignment `m[k] = v` (replaces in place or appends, preserving
Python's dict insertion order). -/
def updateAssoc (m : List (List Char × Int)) (k : List Char) (v : Int) :
    List (List Char × Int) :=
  match m with
  | [] => [(k, v)]
  | (k2, v2) :: rest =>
    if k2 = k then (k, v) :: rest else (k2, v2) :: updateAssoc rest k v

/-- parse_number: symbol lookup first (`if symbols and s in symbols`; the
empty-dict short-circuit coincides with the lookup failing), then 0x/0b
literals whose `int(s, 16)` / `int(s, 2)` failures escape as exceptions,
then decimal, whose failure is caught and returned as `none`. -/
def parseNumber (s0 : List Char) (symbols : List (List Char × Int)) :
    Except PyErr (Option Int) :=
  let s := pyStrip s0
  match lookupAssoc symbols s with
  | some v => .ok (some v)
  | none =>
    if (chars "0x").isPrefixOf s ∨ (chars "0X").isPrefixOf s then
      match pyIntAfterBasePfx hexDigitVal 16 (s.drop 2) with
      | some n => .ok (some (n : Int))
      | none => .error .valueError
    else if (chars "0b").isPrefixOf s ∨ (chars "0B").isPrefixOf s then
      match pyIntAfterBasePfx binDigitVal 2 (s.drop 2) with
      | some n => .ok (some (n : Int))
      | none => .error .valueError
    else
      .ok (pyIntDec s)

/-! ## Assembler: operand parsing (parse_operand and its regexes)

The three regexes are compiled into direct character scans.  For the
capture groups, greedy `\s*` before a lazy `(.+?)` (or greedy `(.+)`)
with a `\s*`-then-anchor tail captures the content with surrounding
whitespace stripped — except that when the content is whitespace only,
backtracking makes the group capture exactly the final whitespace
character.  `lastCharOf` reproduces that corner case. -/

def lastCharOf (l : List Char) : List Char := l.drop (l.length - 1)

/-- RE_IMMEDIATE `^#\s*(.+)$`: `some group1` on a match. -/
def immGroup (text : List Char) : Option (List Char) :=
  match text with
  | '#' :: rest =>
    if rest.isEmpty then none
    else
      let r := rest.dropWhile isPySpace
      some (if r.isEmpty then lastCharOf rest else r)
  | _ => none

/-- RE_DIRECT `^\[\s*(.+?)\s*\]$`: `some group1` on a match. -/
def directGroup (text : List Char) : Option (List Char) :=
  match text with
  | '[' :: rest =>
    if 2 ≤ rest.length ∧ rest.getLast? = some ']' then
      let inner := rest.dropLast
      let strip := pyStrip inner
      some (if strip.isEmpty then lastCharOf inner else strip)
    else none
  | _ => none

/-- RE_INDEXED `^\[\s*(R[01])\s*(?:\+\s*(.+?))?\s*\]$` (IGNORECASE):
`some (group1, group2?)` on a match.  When no `+` follows the register
the remainder must be exactly the closing bracket (the optional group is
skipped); `[R0+]` does not match at all since the lazy group needs at
least one character. -/
def indexedGroups (text : List Char) :
    Option (List Char × Option (List Char)) :=
  match text with
  | '[' :: rest =>
    (match rest.dropWhile isPySpace with
     | r :: d :: rest2 =>
       if (r = 'R' ∨ r = 'r') ∧ (d = '0' ∨ d = '1') then
         let afterReg := rest2.dropWhile isPySpace
         match afterReg with
         | '+' :: rest3 =>
           if rest3.getLast? = some ']' ∧ ¬rest3.dropLast.isEmpty then
             let body := rest3.dropLast
             let strip := pyStrip body
             some ([r, d],
               some (if strip.isEmpty then lastCharOf body else strip))
           else none
         | _ => if afterReg = [']'] then some ([r, d], none) else none
       else none
     | _ => none)
  | _ => none

inductive OpMode : Type
  | imm
  | reg
  | direct
  | indexed
  | value
  deriving DecidableEq

/-- The third component of parse_operand's result: Python's None, an
int, or an unresolved symbol string. -/
inductive OpVal : Type
  | noneV
  | intV (i : Int)
  | symV (s : List Char)
  deriving DecidableEq

/-- parse_operand: returns (mode, reg_name, value). -/
def parseOperand (text0 : List Char) (symbols : List (List Char × Int)) :
    Except PyErr (OpMode × Option (List Char) × OpVal) :=
  let text := pyStrip text0
  let upper := text.map Char.toUpper
  if upper = chars "A" ∨ upper = chars "R0" ∨ upper = chars "R1" then
    .ok (.reg, some upper, .noneV)
  else
    match indexedGroups text with
    | some (regChars, offsetGroup) =>
      let reg := regChars.map Char.toUpper
      (match offsetGroup with
       | some g =>
         (match parseNumber g symbols with
          | .error e => .error e
          | .ok (some v) => .ok (.indexed, some reg, .intV v)
          | .ok none => .ok (.indexed, some reg, .symV g))
       | none => .ok (.indexed, some reg, .intV 0))
    | none =>
    match directGroup text with
    | some g =>
      (match parseNumber g symbols with
       | .error e => .error e
       | .ok (some v) => .ok (.direct, none, .intV v)
       | .ok none => .ok (.direct, none, .symV g))
    | none =>
    match immGroup text with
    | some g =>
      (match parseNumber g symbols with
       | .error e => .error e
       | .ok (some v) => .ok (.imm, none, .intV v)
       | .ok none => .ok (.imm, none, .symV g))
    | none =>
      match parseNumber text symbols with
      | .error e => .error e
      | .ok (some v) => .ok (.value, none, .intV v)
      | .ok none => .ok (.value, none, .symV text)

/-! ## Assembler: encoding tables and functions -/

/-- LD_CODES -/
def ldCode : Reg → Nat
  | .A => 0
  | .R0 => 1
  | .R1 => 2

/-- ST_CODES -/
def stCode : Reg → Nat
  | .A => 3
  | .R0 => 4
  | .R1 => 5

/-- ALU_INSTRUCTIONS -/
def aluCode : ALUOp → Nat
  | .ADD => 6
  | .SUB => 7
  | .AND => 8
  | .OR => 9
  | .XOR => 10
  | .CMP => 11

/-- REG_MODE_R_BIT: (primary_reg, other_reg) to R bit; pairs with equal
components are not in the table. -/
def regModeRBit : Reg → Reg → Option Nat
  | .A, .R0 => some 0
  | .A, .R1 => some 1
  | .R0, .A => some 0
  | .R0, .R1 => some 1
  | .R1, .A => some 0
  | .R1, .R0 => some 1
  | _, _ => none

/-- Register-name strings mapped to registers (REGISTER_NAMES holds the
valid names). -/
def toRegName (n : List Char) : Option Reg :=
  if n = chars "A" then some .A
  else if n = chars "R0" then some .R0
  else if n = chars "R1" then some .R1
  else none

/-- FIXED_OPCODES -/
def fixedOpcodes (name : List Char) : Option Nat :=
  if name = chars "JMP" then some 0x60
  else if name = chars "BZ" then some 0x68
  else if name = chars "BNZ" then some 0x69
  else if name = chars "BC" then some 0x6A
  else if name = chars "BNC" then some 0x6B
  else if name = chars "CALL" then some 0x70
  else if name = chars "RET" then some 0x78
  else if name = chars "PUSH A" then some 0x80
  else if name = chars "PUSH R0" then some 0x81
  else if name = chars "PUSH R1" then some 0x82
  else if name = chars "POP A" then some 0x88
  else if name = chars "POP R0" then some 0x89
  else if name = chars "POP R1" then some 0x8A
  else if name = chars "INC A" then some 0x90
  else if name = chars "INC R0" then some 0x91
  else if name = chars "INC R1" then some 0x92
  else if name = chars "DEC A" then some 0x98
  else if name = chars "DEC R0" then some 0x99
  else if name = chars "DEC R1" then some 0x9A
  else if name = chars "NOP" then some 0xA0
  else if name = chars "HLT" then some 0xA8
  else none

/-- NO_OPERAND -/
def noOperand (name : List Char) : Bool :=
  [chars "RET", chars "PUSH A", chars "PUSH R0", chars "PUSH R1",
   chars "POP A", chars "POP R0", chars "POP R1",
   chars "INC A", chars "INC R0", chars "INC R1",
   chars "DEC A", chars "DEC R0", chars "DEC R1",
   chars "NOP", chars "HLT"].contains name

/-- BRANCH_INSTRUCTIONS -/
def isBranchMn (n : List Char) : Bool :=
  n = chars "BZ" || n = chars "BNZ" || n = chars "BC" || n = chars "BNC"

/-- ALU_INSTRUCTIONS keyed by mnemonic string. -/
def aluByName (n : List Char) : Option ALUOp :=
  if n = chars "ADD" then some .ADD
  else if n = chars "SUB" then some .SUB
  else if n = chars "AND" then some .AND
  else if n = chars "OR" then some .OR
  else if n = chars "XOR" then some .XOR
  else if n = chars "CMP" then some .CMP
  else none

/-- The ValueError messages raised by encode_ld_st / encode_alu. -/
inductive EncErr : Type
  | stImmediateMode
  | regModeInvalid (isStore : Bool) (primary : Reg) (other : Option Reg)
  | aluRegInvalid (mn : ALUOp) (reg : Option Reg)
  | invalidMode (mode : OpMode)
  deriving DecidableEq

/-- encode_ld_st: returns (opcode, optional operand byte). -/
def encodeLdSt (isStore : Bool) (primaryReg : Reg) (mode : OpMode)
    (otherReg : Option Reg) (value : Int) : Except EncErr (Nat × Option Nat) :=
  let iiiii := if isStore then stCode primaryReg else ldCode primaryReg
  match mode with
  | .imm =>
    if isStore then .error .stImmediateMode
    else .ok (iiiii * 8, some (intMask8 value))
  | .reg =>
    (match otherReg with
     | some o =>
       (match regModeRBit primaryReg o with
        | some rBit => .ok (iiiii * 8 + rBit * 4 + 1, none)
        | none => .error (.regModeInvalid isStore primaryReg (some o)))
     | none => .error (.regModeInvalid isStore primaryReg none))
  | .direct => .ok (iiiii * 8 + 2, some (intMask8 value))
  | .indexed =>
    let rBit := if otherReg = some .R0 then 0 else 1
    .ok (iiiii * 8 + rBit * 4 + 3, some (intMask8 value))
  | .value => .error (.invalidMode .value)

/-- encode_alu: A is the implicit accumulator; register mode only accepts
R0 and R1. -/
def encodeAlu (mnemonic : ALUOp) (mode : OpMode) (reg : Option Reg)
    (value : Int) : Except EncErr (Nat × Option Nat) :=
  let iiiii := aluCode mnemonic
  match mode with
  | .imm => .ok (iiiii * 8, some (intMask8 value))
  | .reg =>
    if reg = some Reg.R0 ∨ reg = some Reg.R1 then
      let rBit := if reg = some Reg.R0 then 0 else 1
      .ok (iiiii * 8 + rBit * 4 + 1, none)
    else .error (.aluRegInvalid mnemonic reg)
  | .direct => .ok (iiiii * 8 + 2, some (intMask8 value))
  | .indexed =>
    let rBit := if reg = some Reg.R0 then 0 else 1
    .ok (iiiii * 8 + rBit * 4 + 3, some (intMask8 value))
  | .value => .error (.invalidMode .value)

/-! ## Assembler: line parsing -/

/-- strip_comment: everything before the first `;`. -/
def stripComment (l : List Char) : List Char :=
  l.takeWhile (fun c => c ≠ ';')

def isIdentStart (c : Char) : Bool := c.isAlpha || c = '_'

def isIdentChar (c : Char) : Bool := c.isAlphanum || c = '_'

/-- The label regex `^([A-Za-z_]\w*)\s*:` -- on a match, the identifier
and the text after the colon. -/
def matchLabel (l : List Char) : Option (List Char × List Char) :=
  match l with
  | c :: rest =>
    if isIdentStart c then
      let ident := c :: rest.takeWhile isIdentChar
      let after := (rest.dropWhile isIdentChar).dropWhile isPySpace
      match after with
      | ':' :: tail => some (ident, tail)
      | _ => none
    else none
  | [] => none

/-- parse_line: (label?, mnemonic? upper-cased, operand_text?). -/
def parseLine (raw : List Char) :
    Option (List Char) × Option (List Char) × Option (List Char) :=
  let line := pyStrip (stripComment raw)
  if line.isEmpty then (none, none, none)
  else
    let lab := matchLabel line
    let label := lab.map (fun p => p.1)
    let line2 := match lab with
      | some p => pyStrip p.2
      | none => line
    if line2.isEmpty then (label, none, none)
    else
      match splitWsOnce line2 with
      | some (tok, rest) =>
        let o := pyStrip rest
        (label, some (tok.map Char.toUpper),
          if o.isEmpty then none else some o)
      | none => (label, none, none)

/-! ## Assembler: the per-line diagnostics of pass 1 and pass 2 -/

inductive AErr : Type
  | dupLabel (label : List Char)
  | invalidOrgAddr
  | invalidEquValue (text : List Char)
  | invalidEquForm
  | undefinedSymbol (name : List Char)
  | dsDecode (e : DecErr)
  | dsNotQuoted
  | ldStFirstOperand (mn : List Char) (reg : Option (List Char))
  | ldStNeedsSecond (mn reg : List Char)
  | encoding (e : EncErr)
  | needsAddress (mn : List Char)
  | needsTarget (mn : List Char)
  | branchRange (disp : Int)
  | needsOperand (mn : List Char)
  | unknownInstruction (mn : List Char)
  | addrExceedsMemory (addr : Int)
  deriving DecidableEq

/-- Assembler.resolve: a symbol string is looked up (undefined gives an
error and 0); ints and None pass through. -/
def resolveVal (symbols : List (List Char × Int)) (lineNum : Nat) :
    OpVal → Option Int × List (Nat × AErr)
  | .symV name =>
    (match lookupAssoc symbols name with
     | some v => (some v, [])
     | none => (some 0, [(lineNum, .undefinedSymbol name)]))
  | .intV i => (some i, [])
  | .noneV => (none, [])

/-- Assembler._parse_ld_st_operand -/
def parseLdStOperand (operandText : Option (List Char)) :
    Option (List Char) × Option (List Char) :=
  match operandText with
  | none => (none, none)
  | some t =>
    let (p0, rest) := splitOnceChar ',' t
    (match rest with
     | none => (some ((pyStrip p0).map Char.toUpper), none)
     | some r => (some ((pyStrip p0).map Char.toUpper), some (pyStrip r)))

/-- Assembler._operand_size (pass 1 parses the operand without the symbol
table). -/
def operandSize (operandText : Option (List Char)) : Except PyErr Nat :=
  match operandText with
  | none => .ok 1
  | some t =>
    (match parseOperand t [] with
     | .error e => .error e
     | .ok (mode, _, _) => .ok (if mode = OpMode.reg then 1 else 2))

def isQuoteStart (item : List Char) : Bool :=
  item.headD ' ' = '"' || item.headD ' ' = '\''

/-- `item.strip("\x22'")` for the quoted .DB items. -/
def stripQuotes (item : List Char) : List Char :=
  pyStripSet ['"', '\''] item

/-- The .DS quoted-string test of both passes: starts and ends with the
same quote character. -/
def dsQuoted (s : List Char) : Bool :=
  (s.headD ' ' = '"' && s.getLast? = some '"') ||
  (s.headD ' ' = '\'' && s.getLast? = some '\'')

/-- The .DB size contribution of one (already stripped) item. -/
def dbItemSize (item : List Char) : Nat :=
  if isQuoteStart item then (stripQuotes item).length else 1

/-- Assembler.instruction_size.  A `.error` result is the uncaught
exception that would crash pass 1 (decode_string or int(s, base)
raising). -/
def instructionSize (mnemonic : List Char) (operandText : Option (List Char)) :
    Except PyErr Nat :=
  if mnemonic = chars ".ORG" then .ok 0
  else if mnemonic = chars ".EQU" then .ok 0
  else if mnemonic = chars ".DB" then
    (if optNonempty operandText then
      let items := (splitChar ',' (operandText.getD [])).map pyStrip
      .ok ((items.map dbItemSize).sum)
    else .ok 0)
  else if mnemonic = chars ".DS" then
    (if optNonempty operandText then
      let s := pyStrip (operandText.getD [])
      if dsQuoted s then
        match decodeString (s.drop 1).dropLast with
        | .ok bs => .ok (bs.length + 1)
        | .error _ => .error .valueError
      else .ok 1
    else .ok 1)
  else if mnemonic = chars "LD" ∨ mnemonic = chars "ST" then
    let (_, srcText) := parseLdStOperand operandText
    (match srcText with
     | none => .ok 1
     | some srcT => operandSize (some srcT))
  else if optNonempty operandText ∧
      (fixedOpcodes (mnemonic ++ ' ' ::
        (pyStrip (operandText.getD [])).map Char.toUpper)).isSome then
    .ok 1
  else if (fixedOpcodes mnemonic).isSome then
    (if noOperand mnemonic then .ok 1 else .ok 2)
  else if (aluByName mnemonic).isSome then
    (match operandText with
     | none => .ok 1
     | some t => operandSize (some t))
  else .ok 1

/-! ## Assembler: pass 1 -/

structure Pass1State : Type where
  symbols : List (List Char × Int)
  pc : Int
  errors : List (Nat × AErr)
  deriving DecidableEq

/-- The label-handling block at the top of the pass 1 loop body. -/
def pass1Label (st0 : Pass1State) (lineNum : Nat)
    (label : Option (List Char)) : Pass1State :=
  match label with
  | some lab =>
    if (lookupAssoc st0.symbols lab).isSome then
      { st0 with errors := st0.errors ++ [(lineNum, .dupLabel lab)] }
    else { st0 with symbols := updateAssoc st0.symbols lab st0.pc }
  | none => st0

/-- The mnemonic-handling part of the pass 1 loop body (after the label
block). -/
def pass1Mn (st : Pass1State) (lineNum : Nat)
    (mnemonic operandText : Option (List Char)) : Except PyErr Pass1State :=
  match mnemonic with
  | none => .ok st
  | some mn =>
    if mn = chars ".ORG" then
      match (if optNonempty operandText
             then parseNumber (operandText.getD []) st.symbols
             else .ok none) with
      | .error e => .error e
      | .ok none =>
        .ok { st with errors := st.errors ++ [(lineNum, .invalidOrgAddr)] }
      | .ok (some v) => .ok { st with pc := v }
    else if mn = chars ".EQU" then
      if optNonempty operandText then
        let (p0, rest) := splitOnceChar ',' (operandText.getD [])
        match rest with
        | some second =>
          let name := pyStrip p0
          (match parseNumber (pyStrip second) st.symbols with
           | .error e => .error e
           | .ok none =>
             .ok { st with errors :=
               st.errors ++ [(lineNum, .invalidEquValue (pyStrip second))] }
           | .ok (some v) =>
             .ok { st with symbols := updateAssoc st.symbols name v })
        | none =>
          .ok { st with errors := st.errors ++ [(lineNum, .invalidEquForm)] }
      else .ok st
    else
      match instructionSize mn operandText with
      | .error e => .error e
      | .ok size => .ok { st with pc := st.pc + size }

/-- One iteration of the pass 1 loop over one raw source line. -/
def pass1Line (st0 : Pass1State) (lineNum : Nat) (raw : List Char) :
    Except PyErr Pass1State :=
  let (label, mnemonic, operandText) := parseLine raw
  pass1Mn (pass1Label st0 lineNum label) lineNum mnemonic operandText

def pass1Go (st : Pass1State) (lineNum : Nat) :
    List (List Char) → Except PyErr Pass1State
  | [] => .ok st
  | l :: rest =>
    (match pass1Line st lineNum l with
     | .error e => .error e
     | .ok st2 => pass1Go st2 (lineNum + 1) rest)

/-- Assembler.pass1 over the source lines (symbol table empty, pc = 0,
no errors at entry). -/
def pass1 (lines : List (List Char)) : Except PyErr Pass1State :=
  pass1Go { symbols := [], pc := 0, errors := [] } 1 lines

/-! ## Assembler: pass 2 (per line) -/

/-- The .DB emission loop: quoted items contribute the raw character
codes of the stripped item (no escape decoding, no ASCII check, no
masking); other items are parsed as numbers or resolved as symbols and
masked to 8 bits. -/
def dbEmit (symbols : List (List Char × Int)) (lineNum : Nat) :
    List (List Char) → Except PyErr (List Nat × List (Nat × AErr))
  | [] => .ok ([], [])
  | item :: rest =>
    (match
      (if isQuoteStart item then
        .ok ((stripQuotes item).map Char.toNat, [])
      else
        match parseNumber item symbols with
        | .error e => .error e
        | .ok (some v) => .ok ([intMask8 v], [])
        | .ok none =>
          -- val = self.resolve(item, line_num); a symbol string always
          -- resolves to an int (0 with an error when undefined)
          let (v, es) := resolveVal symbols lineNum (.symV item)
          .ok ([intMask8 (v.getD 0)], es) :
        Except PyErr (List Nat × List (Nat × AErr))) with
     | .error e => .error e
     | .ok (bs, es) =>
       match dbEmit symbols lineNum rest with
       | .error e => .error e
       | .ok (bs2, es2) => .ok (bs ++ bs2, es ++ es2))

/-- The body of the pass 2 loop for one parsed line: the emitted bytes
and the diagnostics recorded for that line.  `.ORG` and `.EQU` (handled
with `continue` in the source before the emission chain) emit nothing;
`.ORG`'s parse_number call can still raise.  `startPc` is `self.pc` at
the start of the line; errors carry the 1-based line number. -/
def pass2Line (symbols : List (List Char × Int)) (startPc : Int)
    (lineNum : Nat) (mnemonic : List Char) (operandText : Option (List Char)) :
    Except PyErr (List Nat × List (Nat × AErr)) :=
  if mnemonic = chars ".ORG" then
    (match (if optNonempty operandText
            then parseNumber (operandText.getD []) symbols
            else .ok (some 0)) with
     | .error e => .error e
     | .ok _ => .ok ([], []))
  else if mnemonic = chars ".EQU" then .ok ([], [])
  else if mnemonic = chars ".DB" then
    (if optNonempty operandText then
      dbEmit symbols lineNum ((splitChar ',' (operandText.getD [])).map pyStrip)
    else .ok ([], []))
  else if mnemonic = chars ".DS" then
    let (bs, es) :=
      if optNonempty operandText then
        let s := pyStrip (operandText.getD [])
        if dsQuoted s then
          match decodeString (s.drop 1).dropLast with
          | .ok l => (l, [])
          | .error e => (([] : List Nat), [(lineNum, .dsDecode e)])
        else ([], [(lineNum, .dsNotQuoted)])
      else ([], [(lineNum, .dsNotQuoted)])
    .ok (bs ++ [0x00], es)
  else if mnemonic = chars "LD" ∨ mnemonic = chars "ST" then
    let isStore := mnemonic = chars "ST"
    let (regOpt, srcText) := parseLdStOperand operandText
    if (regOpt.bind toRegName).isNone then
      .ok ([0], [(lineNum, .ldStFirstOperand mnemonic regOpt)])
    else
      match srcText with
      | none => .ok ([0], [(lineNum, .ldStNeedsSecond mnemonic (regOpt.getD []))])
      | some srcT =>
        (match parseOperand srcT symbols with
         | .error e => .error e
         | .ok (mode0, otherRegChars, val0) =>
           let mode := if mode0 = OpMode.value
                       then (if isStore then OpMode.direct else OpMode.imm)
                       else mode0
           let (valOpt, es1) :=
             match val0 with
             | .symV n => resolveVal symbols lineNum (.symV n)
             | .intV i => (some i, [])
             | .noneV => (none, [])
           match encodeLdSt isStore
               ((regOpt.bind toRegName).getD Reg.A) mode
               (otherRegChars.bind toRegName) (valOpt.getD 0) with
           | .ok (opc, oper) =>
             .ok (opc :: (match oper with
                          | some b => [b]
                          | none => []), es1)
           | .error e => .ok ([0], es1 ++ [(lineNum, .encoding e)]))
  else if optNonempty operandText ∧
      (fixedOpcodes (mnemonic ++ ' ' ::
        (pyStrip (operandText.getD [])).map Char.toUpper)).isSome then
    .ok ([(fixedOpcodes (mnemonic ++ ' ' ::
      (pyStrip (operandText.getD [])).map Char.toUpper)).getD 0], [])
  else if noOperand mnemonic ∧ (fixedOpcodes mnemonic).isSome then
    .ok ([(fixedOpcodes mnemonic).getD 0], [])
  else if mnemonic = chars "JMP" ∨ mnemonic = chars "CALL" then
    let opc := (fixedOpcodes mnemonic).getD 0
    match operandText with
    | none => .ok ([opc, 0], [(lineNum, .needsAddress mnemonic)])
    | some op =>
      (match parseOperand op symbols with
       | .error e => .error e
       | .ok (_, _, v) =>
         let (valOpt, es) := resolveVal symbols lineNum v
         match valOpt with
         | none => .error .typeError   -- None & 0xFF
         | some t => .ok ([opc, intMask8 t], es))
  else if isBranchMn mnemonic then
    let opc := (fixedOpcodes mnemonic).getD 0
    match operandText with
    | none => .ok ([opc, 0], [(lineNum, .needsTarget mnemonic)])
    | some op =>
      (match parseOperand op symbols with
       | .error e => .error e
       | .ok (_, _, v) =>
         let (tOpt, es) := resolveVal symbols lineNum v
         match tOpt with
         | none => .error .typeError   -- None - int
         | some t =>
           let disp := t - (startPc + 2)
           if disp < -128 ∨ 127 < disp then
             .ok ([opc, 0], es ++ [(lineNum, .branchRange disp)])
           else .ok ([opc, intMask8 disp], es))
  else
    match aluByName mnemonic with
    | some mn =>
      (match operandText with
       | none => .ok ([0], [(lineNum, .needsOperand mnemonic)])
       | some op =>
         match parseOperand op symbols with
         | .error e => .error e
         | .ok (mode0, regChars, v) =>
           let mode := if mode0 = OpMode.value then OpMode.imm else mode0
           let (valOpt, es) :=
             match v with
             | .symV n => resolveVal symbols lineNum (.symV n)
             | .intV i => (some i, [])
             | .noneV => (none, [])
           match encodeAlu mn mode (regChars.bind toRegName) (valOpt.getD 0) with
           | .ok (opc, oper) =>
             .ok (opc :: (match oper with
                          | some b => [b]
                          | none => []), es)
           | .error e => .ok ([0], es ++ [(lineNum, .encoding e)]))
    | none => .ok ([0], [(lineNum, .unknownInstruction mnemonic)])

/-! ## Object-file codecs (generate_hex / generate_srec of assembler.py,
parse_hex / parse_srec of simulator.py) -/

/-- One "%X" digit (uppercase). -/
def hexDigit (n : Nat) : Char :=
  if n < 10 then Char.ofNat (48 + n) else Char.ofNat (55 + n)

/-- "%02X" of a byte value. -/
def byteHex (b : Nat) : List Char := [hexDigit (b / 16), hexDigit (b % 16)]

/-- The hex-pair rendering of a byte list. -/
def bytesHex (bs : List Nat) : List Char := (bs.map byteHex).flatten

/-- Python `(~s + 1) & 0xFF` (two's-complement checksum, Intel HEX). -/
def negSumMod (s : Nat) : Nat := (256 - s % 256) % 256

/-- Python `(~s) & 0xFF` (one's-complement checksum, S-records). -/
def complSumMod (s : Nat) : Nat := 255 - s % 256

/-- The inner while loop of the record emitters: gather values of
consecutive addresses starting at `base + k`, at most 16 per record.
Returns the gathered data and the remaining pairs. -/
def gather16 (base : Nat) (k : Nat) :
    List (Nat × Nat) → List Nat × List (Nat × Nat)
  | [] => ([], [])
  | (a, v) :: t =>
    if a = base + k ∧ k < 16 then
      let (d, r) := gather16 base (k + 1) t
      (v :: d, r)
    else ([], (a, v) :: t)

lemma gather16_rest_le (base k : Nat) (l : List (Nat × Nat)) :
    (gather16 base k l).2.length ≤ l.length := by
  induction l generalizing k with
  | nil => simp [gather16]
  | cons hd t ih =>
    obtain ⟨a, v⟩ := hd
    simp only [gather16]
    split
    · have := ih (k + 1)
      cases hg : gather16 base (k + 1) t with
      | mk d r =>
        rw [hg] at this
        simpa using Nat.le_succ_of_le this
    · simp

/-- The outer while loop: chop the (ascending) address/value pairs into
records of up to 16 contiguous bytes.  Each element is (base, data). -/
def buildRuns : List (Nat × Nat) → List (Nat × List Nat)
  | [] => []
  | (a, v) :: t =>
    (a, v :: (gather16 a 1 t).1) :: buildRuns (gather16 a 1 t).2
termination_by l => l.length
decreasing_by
  have := gather16_rest_le a 1 t
  simp only [List.length_cons]
  omega

/-- One Intel HEX data record line (":LLAAAATT[DD...]CC"). -/
def hexRecordLine (base : Nat) (data : List Nat) : List Char :=
  let record := [data.length, (base >>> 8) % 256, base % 256, 0x00] ++ data
  ':' :: bytesHex (record ++ [negSumMod record.sum])

/-- generate_hex, as the list of output lines.  With no data the single
EOF record is produced, exactly as the source's early return. -/
def generateHexLines (m : List (Nat × Nat)) : List (List Char) :=
  (buildRuns m).map (fun r => hexRecordLine r.1 r.2) ++ [chars ":00000001FF"]

/-- generate_hex: "\n".join(lines) + "\n". -/
def generateHex (m : List (Nat × Nat)) : List Char :=
  List.intercalate ['\n'] (generateHexLines m) ++ ['\n']

/-- The S0 header record bytes: count, 16-bit address 0, "EDU-CPU". -/
def srecHeaderBytes : List Nat :=
  let headerData := (chars "EDU-CPU").map Char.toNat
  [2 + 1 + headerData.length, 0x00, 0x00] ++ headerData

def srecHeaderLine : List Char :=
  'S' :: '0' :: bytesHex (srecHeaderBytes ++ [complSumMod srecHeaderBytes.sum])

/-- One S1 data record line. -/
def srecDataLine (base : Nat) (data : List Nat) : List Char :=
  let recBytes := [2 + data.length + 1, (base >>> 8) % 256, base % 256] ++ data
  'S' :: '1' :: bytesHex (recBytes ++ [complSumMod recBytes.sum])

/-- The S9 end record (start address 0x0000). -/
def srecEndLine : List Char :=
  'S' :: '9' :: bytesHex ([0x03, 0x00, 0x00] ++
    [complSumMod ([0x03, 0x00, 0x00] : List Nat).sum])

/-- generate_srec, as the list of output lines. -/
def generateSrecLines (m : List (Nat × Nat)) : List (List Char) :=
  srecHeaderLine ::
    (buildRuns m).map (fun r => srecDataLine r.1 r.2) ++ [srecEndLine]

/-- generate_srec: "\n".join(lines) + "\n". -/
def generateSrec (m : List (Nat × Nat)) : List Char :=
  List.intercalate ['\n'] (generateSrecLines m) ++ ['\n']

/-- bytes.fromhex: pairs of hex digits; spaces are skipped between bytes
but may not separate the two digits of one byte. -/
def pyFromhex : List Char → Option (List Nat)
  | [] => some []
  | ' ' :: rest => pyFromhex rest
  | c :: d :: rest =>
    (match hexDigitVal c, hexDigitVal d with
     | some h, some lo => (pyFromhex rest).map (fun bs => (h * 16 + lo) :: bs)
     | _, _ => none)
  | _ => none

/-- str.splitlines restricted to the terminators that can occur here
("\n", "\r", "\r\n"); a trailing terminator produces no empty line. -/
def splitlinesGo (cur : List Char) : List Char → List (List Char)
  | [] => [cur.reverse]
  | '\r' :: '\n' :: [] => [cur.reverse]
  | '\r' :: '\n' :: rest => cur.reverse :: splitlinesGo [] rest
  | '\r' :: [] => [cur.reverse]
  | '\r' :: rest => cur.reverse :: splitlinesGo [] rest
  | '\n' :: [] => [cur.reverse]
  | '\n' :: rest => cur.reverse :: splitlinesGo [] rest
  | c :: rest => splitlinesGo (c :: cur) rest

def pySplitlines (l : List Char) : List (List Char) :=
  match l with
  | [] => []
  | _ => splitlinesGo [] l

/-- Dict assignment for the parser result maps (addresses as keys). -/
def updateANat (m : List (Nat × Nat)) (k v : Nat) : List (Nat × Nat) :=
  match m with
  | [] => [(k, v)]
  | (k2, v2) :: rest =>
    if k2 = k then (k, v) :: rest else (k2, v2) :: updateANat rest k v

/-- The data-record insertion loop: `for i, b: if addr + i < 256:
result[addr + i] = b`. -/
def insertRun (acc : List (Nat × Nat)) (addr : Nat) :
    List Nat → List (Nat × Nat)
  | [] => acc
  | b :: bs =>
    insertRun (if addr < 256 then updateANat acc addr b else acc) (addr + 1) bs

/-- The parse_hex loop over the (already split) lines; `acc` is the
result dict built so far.  Every `raise ValueError` is `.error`. -/
def parseHexLines (lineNum : Nat) (ls : List (List Char))
    (acc : List (Nat × Nat)) : Except String (List (Nat × Nat)) :=
  match ls with
  | [] => .ok acc
  | l :: rest =>
    let line := pyStrip l
    if line.isEmpty then parseHexLines (lineNum + 1) rest acc
    else if line.headD ' ' ≠ ':' then .error "missing start code"
    else
      match pyFromhex (line.drop 1) with
      | none => .error "non-hexadecimal data"
      | some raw =>
        if raw.length < 5 then .error "record too short"
        else
          let byteCount := raw.headD 0
          let addr := ((raw.getD 1 0) <<< 8) ||| raw.getD 2 0
          let recType := raw.getD 3 0
          let data := (raw.drop 4).dropLast
          if some (negSumMod raw.dropLast.sum) ≠ raw.getLast? then
            .error "checksum mismatch"
          else if data.length ≠ byteCount then .error "byte count mismatch"
          else if recType = 0x01 then .ok acc
          else if recType = 0x00 then
            parseHexLines (lineNum + 1) rest (insertRun acc addr data)
          else parseHexLines (lineNum + 1) rest acc

/-- parse_hex -/
def parseHex (text : List Char) : Except String (List (Nat × Nat)) :=
  parseHexLines 1 (pySplitlines text) []

/-- The parse_srec loop over the (already split) lines.  A line "S"
with nothing after it would raise an IndexError in the source; that is
also an `.error` here. -/
def parseSrecLines (lineNum : Nat) (ls : List (List Char))
    (acc : List (Nat × Nat)) : Except String (List (Nat × Nat)) :=
  match ls with
  | [] => .ok acc
  | l :: rest =>
    let line := pyStrip l
    if line.isEmpty then parseSrecLines (lineNum + 1) rest acc
    else if line.headD ' ' ≠ 'S' then .error "missing S"
    else if line.length < 2 then .error "index error"
    else
      let recType := line.getD 1 ' '
      match pyFromhex (line.drop 2) with
      | none => .error "non-hexadecimal data"
      | some raw =>
        if raw.length < 1 then .error "record too short"
        else
          let byteCount := raw.headD 0
          if raw.length ≠ byteCount + 1 then .error "byte count mismatch"
          else if some (complSumMod raw.dropLast.sum) ≠ raw.getLast? then
            .error "checksum mismatch"
          else if recType = '0' then parseSrecLines (lineNum + 1) rest acc
          else if recType = '1' then
            let addr := ((raw.getD 1 0) <<< 8) ||| raw.getD 2 0
            let data := (raw.drop 3).dropLast
            parseSrecLines (lineNum + 1) rest (insertRun acc addr data)
          else if recType = '9' then .ok acc
          else parseSrecLines (lineNum + 1) rest acc

/-- parse_srec -/
def parseSrec (text : List Char) : Except String (List (Nat × Nat)) :=
  parseSrecLines 1 (pySplitlines text) []

/-! ## Claim C1 -/

/-- C1: in register mode (MM=01) the R bit selects one of the two
registers that is not the primary register, following the cross table
(primary A: R=0 selects R0, R=1 selects R1; primary R0: R=0 selects A,
R=1 selects R1; primary R1: R=0 selects A, R=1 selects R0); and the
assembler's REG_MODE_R_BIT and the simulator's REG_MODE_MAP agree: for
every primary p and other register o distinct from p, decoding the R bit
the assembler emits for (p, o) yields o again (and never the primary). -/
theorem claim_C1_reg_mode_tables_agree :
    (∀ p o : Reg, o ≠ p →
      ∃ b, regModeRBit p o = some b ∧ regModeMap p b = o ∧ regModeMap p b ≠ p) ∧
    regModeMap Reg.A 0 = Reg.R0 ∧ regModeMap Reg.A 1 = Reg.R1 ∧
    regModeMap Reg.R0 0 = Reg.A ∧ regModeMap Reg.R0 1 = Reg.R1 ∧
    regModeMap Reg.R1 0 = Reg.A ∧ regModeMap Reg.R1 1 = Reg.R0 ∧
    regModeRBit Reg.A Reg.R0 = some 0 ∧ regModeRBit Reg.A Reg.R1 = some 1 ∧
    regModeRBit Reg.R0 Reg.A = some 0 ∧ regModeRBit Reg.R0 Reg.R1 = some 1 ∧
    regModeRBit Reg.R1 Reg.A = some 0 ∧ regModeRBit Reg.R1 Reg.R0 = some 1 := by
  constructor
  · intro p o h
    cases p <;> cases o <;>
      first
        | exact absurd rfl h
        | exact ⟨0, rfl, rfl, by decide⟩
        | exact ⟨1, rfl, rfl, by decide⟩
  · exact ⟨rfl, rfl, rfl, rfl, rfl, rfl, rfl, rfl, rfl, rfl, rfl, rfl⟩

/-- Witness for C1 at the concrete pair (A, R0). -/
theorem claim_C1_witness :
    Reg.R0 ≠ Reg.A ∧
    ∃ b, regModeRBit Reg.A Reg.R0 = some b ∧ regModeMap Reg.A b = Reg.R0 ∧
      regModeMap Reg.A b ≠ Reg.A :=
  ⟨by decide, claim_C1_reg_mode_tables_agree.1 Reg.A Reg.R0 (by decide)⟩

/-! ## Claim C9 -/

/-- C9 counterexample: inside a `.DB` quoted string the two characters
backslash-n are emitted verbatim as 0x5C 0x6E with no error; the claim
says every such escape decodes to the single byte 0x0A. -/
theorem claim_C9_counterexample :
    pass2Line [] 0 1 (chars ".DB") (some (chars "\"\\n\"")) =
      .ok ([0x5C, 0x6E], []) ∧
    ([0x5C, 0x6E] : List Nat) ≠ [0x0A] := by
  constructor
  · rfl
  · decide

lemma escapeMap_ascii (c : Char) (b : Nat) (h : escapeMap c = some b) :
    c.toNat ≤ 127 := by
  unfold escapeMap at h
  split at h <;> (try cases h) <;> decide

/-- Reduction of decodeString on an escape pair. -/
lemma decodeString_escape (ch : Char) (rest : List Char) :
    decodeString ('\\' :: ch :: rest) =
      (match escapeMap ch with
       | some b => (decodeString rest).map (fun l => b :: l)
       | none => .error (.unknownEscape ch)) := rfl

/-- Reduction of decodeString on a head that is not the start of an
escape sequence. -/
lemma decodeString_plain (c : Char) (rest : List Char)
    (hne : ∀ ch rest2, ¬(c = '\\' ∧ rest = ch :: rest2)) :
    decodeString (c :: rest) =
      (if c.toNat > 127 then .error (.nonAscii c)
       else (decodeString rest).map (fun l => c.toNat :: l)) := by
  rw [decodeString.eq_def]
  split
  · rename_i heq
    cases heq
  · rename_i ch rest2 heq
    rw [List.cons.injEq] at heq
    exact absurd ⟨heq.1, heq.2⟩ (hne ch rest2)
  · rename_i c2 rest2 hx heq
    rw [List.cons.injEq] at heq
    obtain ⟨h1, h2⟩ := heq
    subst h1
    subst h2
    rfl

lemma decodeString_ok_ascii (s : List Char) :
    ∀ bs, decodeString s = .ok bs → ∀ c ∈ s, c.toNat ≤ 127 := by
  induction s using decodeString.induct with
  | case1 =>
    intro bs h c hc
    simp at hc
  | case2 ch rest b hmap ih =>
    intro bs h c hc
    rw [decodeString_escape, hmap] at h
    cases hr : decodeString rest with
    | error e => rw [hr] at h; cases h
    | ok l =>
      rw [hr] at h
      simp at hc
      rcases hc with hc | hc | hc
      · subst hc; decide
      · subst hc; exact escapeMap_ascii _ b hmap
      · exact ih l hr c hc
  | case3 ch rest hmap =>
    intro bs h c hc
    rw [decodeString_escape, hmap] at h
    cases h
  | case4 c0 rest hne hbig =>
    intro bs h c hc
    rw [decodeString_plain c0 rest
      (fun ch rest2 hx => hne ch rest2 hx.1 hx.2)] at h
    rw [if_pos hbig] at h
    cases h
  | case5 c0 rest hne hsmall ih =>
    intro bs h c hc
    rw [decodeString_plain c0 rest
      (fun ch rest2 hx => hne ch rest2 hx.1 hx.2)] at h
    rw [if_neg hsmall] at h
    cases hr : decodeString rest with
    | error e => rw [hr] at h; cases h
    | ok l =>
      rw [hr] at h
      rcases List.mem_cons.1 hc with hc | hc
      · subst hc; omega
      · exact ih l hr c hc

lemma dropWhile_eq_self_of_head (p : Char → Bool) (l : List Char)
    (h : ∀ c, l.head? = some c → p c = false) : l.dropWhile p = l := by
  cases l with
  | nil => rfl
  | cons c t =>
    rw [List.dropWhile_cons, h c rfl]
    simp

lemma pyStrip_eq_self (l : List Char)
    (h1 : ∀ c, l.head? = some c → isPySpace c = false)
    (h2 : ∀ c, l.getLast? = some c → isPySpace c = false) : pyStrip l = l := by
  unfold pyStrip
  rw [dropWhile_eq_self_of_head _ _ h1]
  rw [dropWhile_eq_self_of_head _ _ (fun c hc => h2 c (by rwa [List.head?_reverse] at hc))]
  exact List.reverse_reverse l

/-- C9 (amended): the escape sequences and the non-ASCII check apply to
`.DS` string operands (which go through decode_string): the escapes
backslash-n/t/r/0/backslash decode to bytes 0x0A/0x09/0x0D/0x00/0x5C, a
string containing a non-ASCII character never decodes successfully, and
pass 2 emits the decoded bytes plus a null terminator for `.DS`.  `.DB`
string items are emitted verbatim per character with no escape decoding
and no ASCII check (see the counterexample). -/
theorem claim_C9_escapes_amended :
    (∀ rest, decodeString ('\\' :: 'n' :: rest) =
      (decodeString rest).map (fun l => 0x0A :: l)) ∧
    (∀ rest, decodeString ('\\' :: 't' :: rest) =
      (decodeString rest).map (fun l => 0x09 :: l)) ∧
    (∀ rest, decodeString ('\\' :: 'r' :: rest) =
      (decodeString rest).map (fun l => 0x0D :: l)) ∧
    (∀ rest, decodeString ('\\' :: '0' :: rest) =
      (decodeString rest).map (fun l => 0x00 :: l)) ∧
    (∀ rest, decodeString ('\\' :: '\\' :: rest) =
      (decodeString rest).map (fun l => 0x5C :: l)) ∧
    (∀ s bs, (∃ c ∈ s, 127 < c.toNat) → decodeString s ≠ .ok bs) ∧
    (∀ symbols ln s bs, decodeString s = .ok bs →
      pass2Line symbols 0 ln (chars ".DS") (some ('"' :: s ++ ['"'])) =
        .ok (bs ++ [0x00], [])) := by
  refine ⟨fun rest => rfl, fun rest => rfl, fun rest => rfl, fun rest => rfl,
    fun rest => rfl, ?_, ?_⟩
  · intro s bs ⟨c, hc, hbig⟩ h
    have := decodeString_ok_ascii s bs h c hc
    omega
  · intro symbols ln s bs h
    unfold pass2Line
    rw [if_neg (by decide), if_neg (by decide), if_neg (by decide),
      if_pos rfl]
    have hq : '"' :: s ++ ['"'] = ('"' :: s) ++ ['"'] := by simp
    have hstrip : pyStrip ('"' :: s ++ ['"']) = '"' :: s ++ ['"'] := by
      apply pyStrip_eq_self
      · intro c hc
        simp at hc
        cases hc
        decide
      · intro c hc
        rw [hq, List.getLast?_concat] at hc
        cases hc
        decide
    have hne : optNonempty (some ('"' :: s ++ ['"'])) = true := by
      simp [optNonempty]
    rw [hne]
    simp only [Option.getD_some, hstrip, if_pos rfl]
    have hdsq : dsQuoted ('"' :: s ++ ['"']) = true := by
      unfold dsQuoted
      rw [hq, List.getLast?_concat]
      simp [List.headD]
    rw [hdsq]
    simp only [if_pos rfl]
    have hinner : (('"' :: s ++ ['"']).drop 1).dropLast = s := by
      simp
    rw [hinner, h]
    simp

/-- Witness for C9 (amended) at the concrete string backslash-n. -/
theorem claim_C9_witness :
    decodeString (chars "\\n") = .ok [0x0A] ∧
    pass2Line [] 0 1 (chars ".DS") (some (chars "\"\\n\"")) =
      .ok ([0x0A, 0x00], []) := by
  constructor
  · have := claim_C9_escapes_amended.1 []
    simpa using this
  · have := claim_C9_escapes_amended.2.2.2.2.2.2 [] 1 (chars "\\n") [0x0A]
      (by rfl)
    simpa using this

/-! ## Claim C8 -/

/-- C8 counterexample: the identifier X is defined twice by two .EQU
directives, yet pass 1 reports no error and silently rebinds X to the
second value. -/
theorem claim_C8_counterexample :
    pass1 [chars ".EQU X, 1", chars ".EQU X, 2"] =
      .ok { symbols := [(chars "X", 2)], pc := 0, errors := [] } := by
  rfl

lemma pass1Mn_errors_mono (st : Pass1State) (ln : Nat)
    (mn op : Option (List Char)) (st2 : Pass1State)
    (h : pass1Mn st ln mn op = .ok st2) :
    ∃ es, st2.errors = st.errors ++ es := by
  unfold pass1Mn at h
  repeat' split at h
  all_goals cases h
  all_goals first
    | exact ⟨[], (List.append_nil _).symm⟩
    | exact ⟨_, rfl⟩

lemma pass1Label_errors_mono (st : Pass1State) (ln : Nat)
    (label : Option (List Char)) :
    ∃ es, (pass1Label st ln label).errors = st.errors ++ es := by
  unfold pass1Label
  split
  · split
    · exact ⟨_, rfl⟩
    · exact ⟨[], (List.append_nil _).symm⟩
  · exact ⟨[], (List.append_nil _).symm⟩

lemma pass1Go_errors_mono (ls : List (List Char)) :
    ∀ st ln st2, pass1Go st ln ls = .ok st2 →
      ∃ es, st2.errors = st.errors ++ es := by
  induction ls with
  | nil =>
    intro st ln st2 h
    unfold pass1Go at h
    cases h
    exact ⟨[], (List.append_nil _).symm⟩
  | cons l rest ih =>
    intro st ln st2 h
    unfold pass1Go pass1Line at h
    split at h
    · cases h
    · rename_i stm hm
      rcases hp : parseLine l with ⟨lab, mn, op⟩
      rw [hp] at hm
      obtain ⟨es0, h0⟩ := pass1Label_errors_mono st ln lab
      obtain ⟨es1, h1⟩ := pass1Mn_errors_mono _ _ _ _ _ hm
      obtain ⟨es2, h2⟩ := ih _ _ _ h
      refine ⟨es0 ++ es1 ++ es2, ?_⟩
      rw [h2, h1, h0]
      simp [List.append_assoc]

lemma pass1Go_append (ys : List (List Char)) : ∀ (xs : List (List Char))
    (st : Pass1State) (n : Nat) (st1 : Pass1State),
    pass1Go st n xs = .ok st1 →
    pass1Go st n (xs ++ ys) = pass1Go st1 (n + xs.length) ys := by
  intro xs
  induction xs with
  | nil =>
    intro st n st1 h
    unfold pass1Go at h
    cases h
    simp
  | cons x rest ih =>
    intro st n st1 h
    rw [List.cons_append]
    simp only [pass1Go] at h ⊢
    cases hl : pass1Line st n x with
    | error e =>
      rw [hl] at h
      dsimp only at h
      cases h
    | ok st2 =>
      rw [hl] at h
      dsimp only at h ⊢
      rw [ih st2 (n + 1) st1 h]
      have harith : n + 1 + rest.length = n + (rest.length + 1) := by omega
      simp [harith]

lemma lookup_updateAssoc (m : List (List Char × Int)) (k : List Char)
    (v : Int) : lookupAssoc (updateAssoc m k v) k = some v := by
  induction m with
  | nil => simp [updateAssoc, lookupAssoc]
  | cons p rest ih =>
    obtain ⟨k2, v2⟩ := p
    unfold updateAssoc
    split
    · rename_i hk
      simp [lookupAssoc]
    · rename_i hk
      unfold lookupAssoc
      rw [if_neg hk]
      exact ih

/-- C8 (amended): a second definition of an identifier is reported as an
error exactly when the second definition is a label (two labels, or a
label after a .EQU of the same name): processing a line whose label is
already in the symbol table records a duplicate-label error that survives
to the end of pass 1.  A second .EQU for an existing name reports no
error and silently rebinds the symbol (see the counterexample). -/
theorem claim_C8_duplicate_defs_amended :
    (∀ (pre : List (List Char)) (raw : List Char) (post : List (List Char))
       (st st' : Pass1State) (lab : List Char)
       (mn opt : Option (List Char)) (v : Int),
      pass1 pre = .ok st →
      parseLine raw = (some lab, mn, opt) →
      lookupAssoc st.symbols lab = some v →
      pass1 (pre ++ raw :: post) = .ok st' →
      (pre.length + 1, AErr.dupLabel lab) ∈ st'.errors) ∧
    (∀ (st : Pass1State) (ln : Nat) (raw p0 second : List Char)
       (opText : List Char) (v : Int),
      parseLine raw = (none, some (chars ".EQU"), some opText) →
      opText ≠ [] →
      splitOnceChar ',' opText = (p0, some second) →
      parseNumber (pyStrip second) st.symbols = .ok (some v) →
      pass1Line st ln raw =
        .ok { st with symbols := updateAssoc st.symbols (pyStrip p0) v } ∧
      lookupAssoc (updateAssoc st.symbols (pyStrip p0) v) (pyStrip p0) =
        some v) := by
  constructor
  · intro pre raw post st st' lab mn opt v hpre hparse hlook hfull
    unfold pass1 at hpre hfull
    rw [pass1Go_append (raw :: post) pre _ _ st hpre] at hfull
    unfold pass1Go at hfull
    split at hfull
    · cases hfull
    · rename_i stm hm
      unfold pass1Line at hm
      rw [hparse] at hm
      dsimp only at hm
      have hlabel : pass1Label st (1 + pre.length) (some lab) =
          { st with errors :=
            st.errors ++ [(1 + pre.length, .dupLabel lab)] } := by
        unfold pass1Label
        dsimp only
        rw [hlook]
        simp
      rw [hlabel] at hm
      obtain ⟨es1, h1⟩ := pass1Mn_errors_mono _ _ _ _ _ hm
      obtain ⟨es2, h2⟩ := pass1Go_errors_mono _ _ _ _ hfull
      rw [h2, h1]
      simp [Nat.add_comm 1 pre.length]
  · intro st ln raw p0 second opText v hparse hne hsplit hnum
    constructor
    · unfold pass1Line
      rw [hparse]
      unfold pass1Mn pass1Label
      dsimp only
      rw [if_neg (by decide), if_pos rfl]
      have hop : optNonempty (some opText) = true := by
        simp [optNonempty, hne]
      rw [hop]
      rw [if_pos rfl]
      simp only [Option.getD_some]
      rw [hsplit]
      dsimp only
      rw [hnum]
    · exact lookup_updateAssoc st.symbols (pyStrip p0) v

/-- Witness for C8 (amended): a label X following a .EQU X gets a
duplicate-label error on line 2. -/
theorem claim_C8_witness :
    pass1 [chars ".EQU X, 1", chars "X: NOP"] =
      .ok { symbols := [(chars "X", 1)], pc := 1,
            errors := [(2, AErr.dupLabel (chars "X"))] } ∧
    (2, AErr.dupLabel (chars "X")) ∈
      ({ symbols := [(chars "X", (1 : Int))], pc := 1,
         errors := [(2, AErr.dupLabel (chars "X"))] } : Pass1State).errors := by
  constructor
  · rfl
  · exact claim_C8_duplicate_defs_amended.1 [chars ".EQU X, 1"]
      (chars "X: NOP") []
      { symbols := [(chars "X", 1)], pc := 0, errors := [] }
      { symbols := [(chars "X", 1)], pc := 1,
        errors := [(2, AErr.dupLabel (chars "X"))] }
      (chars "X") (some (chars "NOP")) none 1 rfl rfl rfl rfl

/-! ## Claim C6 -/

lemma branchCond_none (n : Nat)
    (h : ¬(n = 0x68 ∨ n = 0x69 ∨ n = 0x6A ∨ n = 0x6B)) :
    branchCond n = none := by
  unfold branchCond
  split <;> simp_all

/-- A runtime fault in the instruction body is a runtime fault of step. -/
lemma step_error_of_execInstr (s : CPUState) (hh : s.halted = false)
    (hl : s.loaded s.pc = true) (f : Fault) (he : execInstr s = .error f) :
    step s = .error f := by
  unfold step
  simp [hh, hl, he]

lemma execInstr_invalid_push (s : CPUState)
    (hi : s.mem s.pc / 8 % 32 = 16) (hm : s.mem s.pc % 4 = 3) :
    execInstr s = .error (.invalidPush (s.mem s.pc) s.pc) := by
  unfold execInstr fetch
  dsimp only
  rw [hi, hm]
  rw [show ldPrimary 16 = none from rfl, show stPrimary 16 = none from rfl,
    show aluLookup 16 = none from rfl]
  dsimp only
  rw [if_neg (show ¬s.mem s.pc = 0x60 by omega)]
  rw [branchCond_none (s.mem s.pc) (by omega)]
  dsimp only
  rw [if_neg (show ¬s.mem s.pc = 0x70 by omega),
    if_neg (show ¬s.mem s.pc = 0x78 by omega), if_pos rfl]
  rw [show regEncoding 3 = none from rfl]

lemma execInstr_invalid_pop (s : CPUState)
    (hi : s.mem s.pc / 8 % 32 = 17) (hm : s.mem s.pc % 4 = 3) :
    execInstr s = .error (.invalidPop (s.mem s.pc) s.pc) := by
  unfold execInstr fetch
  dsimp only
  rw [hi, hm]
  rw [show ldPrimary 17 = none from rfl, show stPrimary 17 = none from rfl,
    show aluLookup 17 = none from rfl]
  dsimp only
  rw [if_neg (show ¬s.mem s.pc = 0x60 by omega)]
  rw [branchCond_none (s.mem s.pc) (by omega)]
  dsimp only
  rw [if_neg (show ¬s.mem s.pc = 0x70 by omega),
    if_neg (show ¬s.mem s.pc = 0x78 by omega),
    if_neg (show ¬(17 : Nat) = 16 by omega), if_pos rfl]
  rw [show regEncoding 3 = none from rfl]

lemma execInstr_invalid_inc (s : CPUState)
    (hi : s.mem s.pc / 8 % 32 = 18) (hm : s.mem s.pc % 4 = 3) :
    execInstr s = .error (.invalidInc (s.mem s.pc) s.pc) := by
  unfold execInstr fetch
  dsimp only
  rw [hi, hm]
  rw [show ldPrimary 18 = none from rfl, show stPrimary 18 = none from rfl,
    show aluLookup 18 = none from rfl]
  dsimp only
  rw [if_neg (show ¬s.mem s.pc = 0x60 by omega)]
  rw [branchCond_none (s.mem s.pc) (by omega)]
  dsimp only
  rw [if_neg (show ¬s.mem s.pc = 0x70 by omega),
    if_neg (show ¬s.mem s.pc = 0x78 by omega),
    if_neg (show ¬(18 : Nat) = 16 by omega),
    if_neg (show ¬(18 : Nat) = 17 by omega), if_pos rfl]
  rw [show regEncoding 3 = none from rfl]

lemma execInstr_invalid_dec (s : CPUState)
    (hi : s.mem s.pc / 8 % 32 = 19) (hm : s.mem s.pc % 4 = 3) :
    execInstr s = .error (.invalidDec (s.mem s.pc) s.pc) := by
  unfold execInstr fetch
  dsimp only
  rw [hi, hm]
  rw [show ldPrimary 19 = none from rfl, show stPrimary 19 = none from rfl,
    show aluLookup 19 = none from rfl]
  dsimp only
  rw [if_neg (show ¬s.mem s.pc = 0x60 by omega)]
  rw [branchCond_none (s.mem s.pc) (by omega)]
  dsimp only
  rw [if_neg (show ¬s.mem s.pc = 0x70 by omega),
    if_neg (show ¬s.mem s.pc = 0x78 by omega),
    if_neg (show ¬(19 : Nat) = 16 by omega),
    if_neg (show ¬(19 : Nat) = 17 by omega),
    if_neg (show ¬(19 : Nat) = 18 by omega), if_pos rfl]
  rw [show regEncoding 3 = none from rfl]

/-- C6 counterexample: opcode 0x84 lies in the PUSH group
(bits 7..3 = 10000) and has bit 2 set, yet step executes it as PUSH A
without any fault; the claim says it must raise an invalid-opcode
runtime fault. -/
theorem claim_C6_counterexample :
    (0x84 / 8 % 32 = 16 ∧ 0x84 / 4 % 2 = 1) ∧
    step { a := 7, r0 := 0, r1 := 0, pc := 0, z := false, c := false,
           sp := 0, stack := [0, 0, 0, 0],
           mem := fun i => if i = 0 then 0x84 else 0,
           loaded := fun i => i == 0, halted := false, cycles := 0,
           out := [] } =
      .ok (true,
        { a := 7, r0 := 0, r1 := 0, pc := 1, z := false, c := false,
          sp := 1, stack := [7, 0, 0, 0],
          mem := fun i => if i = 0 then 0x84 else 0,
          loaded := fun i => i == 0, halted := false, cycles := 1,
          out := [] }) := by
  constructor
  · decide
  · rfl

/-- C6 (amended): in the PUSH/POP/INC/DEC groups the decoder ignores
bit 2 and raises the invalid-encoding fault exactly for the register
codes outside REG_ENCODING, i.e. when bits 1..0 equal 11; an opcode with
bit 2 set but bits 1..0 in {0,1,2} executes with bit 2 ignored (see the
counterexample). -/
theorem claim_C6_group_decode_amended (s : CPUState)
    (hh : s.halted = false) (hl : s.loaded s.pc = true)
    (hm : s.mem s.pc % 4 = 3) :
    (s.mem s.pc / 8 % 32 = 16 →
      step s = .error (.invalidPush (s.mem s.pc) s.pc)) ∧
    (s.mem s.pc / 8 % 32 = 17 →
      step s = .error (.invalidPop (s.mem s.pc) s.pc)) ∧
    (s.mem s.pc / 8 % 32 = 18 →
      step s = .error (.invalidInc (s.mem s.pc) s.pc)) ∧
    (s.mem s.pc / 8 % 32 = 19 →
      step s = .error (.invalidDec (s.mem s.pc) s.pc)) :=
  ⟨fun hi => step_error_of_execInstr s hh hl _ (execInstr_invalid_push s hi hm),
   fun hi => step_error_of_execInstr s hh hl _ (execInstr_invalid_pop s hi hm),
   fun hi => step_error_of_execInstr s hh hl _ (execInstr_invalid_inc s hi hm),
   fun hi => step_error_of_execInstr s hh hl _ (execInstr_invalid_dec s hi hm)⟩

/-- Witness for C6 (amended): opcode 0x83 (PUSH group, register code 3)
faults. -/
theorem claim_C6_witness :
    step { a := 0, r0 := 0, r1 := 0, pc := 0, z := false, c := false,
           sp := 0, stack := [0, 0, 0, 0],
           mem := fun i => if i = 0 then 0x83 else 0,
           loaded := fun i => i == 0, halted := false, cycles := 0,
           out := [] } =
      .error (.invalidPush 0x83 0) := by
  have := (claim_C6_group_decode_amended
    { a := 0, r0 := 0, r1 := 0, pc := 0, z := false, c := false,
      sp := 0, stack := [0, 0, 0, 0],
      mem := fun i => if i = 0 then 0x83 else 0,
      loaded := fun i => i == 0, halted := false, cycles := 0,
      out := [] } rfl rfl (by decide)).1 (by decide)
  simpa using this

/-! ## Claim C3 -/

/-- The simulator's signed reading of a displacement byte
(`disp_byte if disp_byte < 128 else disp_byte - 256`). -/
def signed8 (b : Nat) : Int :=
  if b < 128 then (b : Int) else (b : Int) - 256

lemma signed8_intMask8 (d : Int) (h1 : -128 ≤ d) (h2 : d ≤ 127) :
    signed8 (intMask8 d) = d := by
  unfold signed8 intMask8
  split <;> omega

lemma fixedOpcodes_branch_sp (mn : List Char) (hmn : isBranchMn mn = true)
    (t : List Char) : fixedOpcodes (mn ++ ' ' :: t) = none := by
  unfold isBranchMn at hmn
  simp only [Bool.or_eq_true, decide_eq_true_eq] at hmn
  rcases hmn with ((h | h) | h) | h <;> subst h <;> rfl

lemma compound_cond_false_of_branch (mn : List Char)
    (hmn : isBranchMn mn = true) (opText : Option (List Char)) :
    ¬(optNonempty opText = true ∧
      (fixedOpcodes (mn ++ ' ' ::
        (pyStrip (opText.getD [])).map Char.toUpper)).isSome = true) := by
  intro hcon
  have hb := hcon.2
  rw [fixedOpcodes_branch_sp mn hmn] at hb
  cases hb

/-- C3: for a branch line that pass 2 encodes without any error, the
emitted bytes are the branch opcode followed by a displacement byte whose
signed (two's-complement) reading equals target - (branch_address + 2),
and that difference lies in [-128, 127]; when the difference is out of
that range the line gets a branch-displacement error and the emitted
second byte is the zero placeholder (not a valid displacement). -/
theorem claim_C3_branch_displacement (symbols : List (List Char × Int))
    (startPc : Int) (ln : Nat) (mn : List Char) (opText : Option (List Char))
    (hmn : isBranchMn mn = true) :
    (∀ bytes, pass2Line symbols startPc ln mn opText = .ok (bytes, []) →
      ∃ op b m r v t,
        opText = some op ∧
        parseOperand op symbols = .ok (m, r, v) ∧
        resolveVal symbols ln v = (some t, []) ∧
        bytes = [(fixedOpcodes mn).getD 0, b] ∧
        -128 ≤ t - (startPc + 2) ∧ t - (startPc + 2) ≤ 127 ∧
        signed8 b = t - (startPc + 2)) ∧
    (∀ op m r v t es, opText = some op →
      parseOperand op symbols = .ok (m, r, v) →
      resolveVal symbols ln v = (some t, es) →
      (t - (startPc + 2) < -128 ∨ 127 < t - (startPc + 2)) →
      pass2Line symbols startPc ln mn opText =
        .ok ([(fixedOpcodes mn).getD 0, 0],
          es ++ [(ln, .branchRange (t - (startPc + 2)))])) := by
  unfold isBranchMn at hmn
  simp only [Bool.or_eq_true, decide_eq_true_eq] at hmn
  rcases hmn with ((hbr | hbr) | hbr) | hbr <;> subst hbr <;>
  · constructor
    · intro bytes h
      unfold pass2Line at h
      rw [if_neg (by decide), if_neg (by decide), if_neg (by decide),
        if_neg (by decide), if_neg (by decide),
        if_neg (compound_cond_false_of_branch _ (by decide) opText),
        if_neg (by decide), if_neg (by decide), if_pos (by decide)] at h
      cases opText with
      | none =>
        dsimp only at h
        simp at h
      | some op =>
        dsimp only at h
        cases hp : parseOperand op symbols with
        | error e => rw [hp] at h; cases h
        | ok triple =>
          obtain ⟨m, r, v⟩ := triple
          rw [hp] at h
          dsimp only at h
          rcases hr : resolveVal symbols ln v with ⟨tOpt, es⟩
          rw [hr] at h
          dsimp only at h
          cases tOpt with
          | none => cases h
          | some t =>
            dsimp only at h
            by_cases hd : t - (startPc + 2) < -128 ∨ 127 < t - (startPc + 2)
            · rw [if_pos hd] at h
              simp at h
            · rw [if_neg hd] at h
              rw [Except.ok.injEq, Prod.mk.injEq] at h
              obtain ⟨hb, hes⟩ := h
              subst hes
              push_neg at hd
              refine ⟨op, intMask8 (t - (startPc + 2)), m, r, v, t, rfl, hp,
                hr, hb.symm, by omega, by omega, ?_⟩
              exact signed8_intMask8 _ (by omega) (by omega)
    · intro op m r v t es hop hp hr hd
      subst hop
      unfold pass2Line
      rw [if_neg (by decide), if_neg (by decide), if_neg (by decide),
        if_neg (by decide), if_neg (by decide),
        if_neg (compound_cond_false_of_branch _ (by decide) _),
        if_neg (by decide), if_neg (by decide), if_pos (by decide)]
      dsimp only
      rw [hp]
      dsimp only
      rw [hr]
      dsimp only
      rw [if_pos hd]

/-- Witness for C3 at the concrete line `BZ 10` assembled at address 0. -/
theorem claim_C3_witness :
    ∃ op b m r v t,
      (some (chars "10") : Option (List Char)) = some op ∧
      parseOperand op [] = .ok (m, r, v) ∧
      resolveVal [] 1 v = (some t, []) ∧
      ([104, 8] : List Nat) = [(fixedOpcodes (chars "BZ")).getD 0, b] ∧
      -128 ≤ t - ((0 : Int) + 2) ∧ t - ((0 : Int) + 2) ≤ 127 ∧
      signed8 b = t - ((0 : Int) + 2) :=
  (claim_C3_branch_displacement [] 0 1 (chars "BZ") (some (chars "10"))
    (by rfl)).1 [104, 8] (by rfl)

/-! ## Claim C2 -/

/-- Well-formedness: registers and memory hold 8-bit values.  This holds
for every state the simulator can construct (load_map stores bytes,
_set_reg and memory writes mask to 8 bits). -/
def WF (s : CPUState) : Prop :=
  s.a < 256 ∧ s.r0 < 256 ∧ s.r1 < 256 ∧ ∀ i, s.mem i < 256

lemma ldPrimary_none (n : Nat) (h : ¬(n = 0 ∨ n = 1 ∨ n = 2)) :
    ldPrimary n = none := by
  unfold ldPrimary
  split <;> simp_all

lemma stPrimary_none (n : Nat) (h : ¬(n = 3 ∨ n = 4 ∨ n = 5)) :
    stPrimary n = none := by
  unfold stPrimary
  split <;> simp_all

lemma aluLookup_bounds (n : Nat) (op2 : ALUOp) (h : aluLookup n = some op2) :
    6 ≤ n ∧ n ≤ 11 := by
  unfold aluLookup at h
  split at h <;> simp_all <;> omega

lemma resolveSource_fst_lt (mm rBit : Nat) (p : Reg) (s : CPUState)
    (hw : WF s) : (resolveSource mm rBit p s).1 < 256 := by
  obtain ⟨ha, h0, h1, hm⟩ := hw
  unfold resolveSource fetch memRead getReg rIdx
  repeat' first
    | dsimp only
    | split
  all_goals first
    | exact ha
    | exact h0
    | exact h1
    | apply hm

lemma resolveSource_snd_a (mm rBit : Nat) (p : Reg) (s : CPUState) :
    (resolveSource mm rBit p s).2.a = s.a := by
  unfold resolveSource fetch
  repeat' first
    | dsimp only
    | split
  all_goals try (rename_i heq; cases heq)
  all_goals rfl

lemma resolveSource_snd_halted (mm rBit : Nat) (p : Reg) (s : CPUState) :
    (resolveSource mm rBit p s).2.halted = s.halted := by
  unfold resolveSource fetch
  repeat' first
    | dsimp only
    | split
  all_goals try (rename_i heq; cases heq)
  all_goals rfl

lemma aluExec_halted (op : ALUOp) (src : Nat) (s : CPUState) :
    (aluExec op src s).halted = s.halted := by
  cases op <;> rfl

/-- The ALU dispatch of execInstr in terms of resolve_source. -/
lemma execInstr_alu (s : CPUState) (op2 : ALUOp)
    (hi : aluLookup (s.mem s.pc / 8 % 32) = some op2) :
    execInstr s =
      .ok (aluExec op2
        (resolveSource (s.mem s.pc % 4) (s.mem s.pc / 4 % 2) Reg.A
          (fetch s).2).1
        (resolveSource (s.mem s.pc % 4) (s.mem s.pc / 4 % 2) Reg.A
          (fetch s).2).2) := by
  have hb := aluLookup_bounds _ _ hi
  unfold execInstr fetch
  dsimp only
  rw [ldPrimary_none _ (by omega), stPrimary_none _ (by omega), hi]

lemma step_ok_of_execInstr (s : CPUState) (hh : s.halted = false)
    (hl : s.loaded s.pc = true) (s2 : CPUState)
    (he : execInstr s = .ok s2) :
    step s = .ok (!s2.halted, { s2 with cycles := s2.cycles + 1 }) := by
  unfold step
  simp [hh, hl, he]

lemma testBit8_iff (n : Nat) (h : n < 512) : n.testBit 8 = true ↔ 256 ≤ n := by
  rw [Nat.testBit_to_div_mod]
  simp only [decide_eq_true_eq]
  omega

lemma intMask8_eq_zero_iff (x : Int) : intMask8 x = 0 ↔ x % 256 = 0 := by
  unfold intMask8
  omega

/-- C2: flag semantics of the ALU instructions, for every not-halted
well-formed state whose pc is loaded and whose opcode decodes into the
ALU group; `src` is the value resolve_source returns and `s.a` is the
accumulator before the instruction.  After ADD: A = (pre_A + src) mod
256, Z iff the new A is 0, C iff pre_A + src ≥ 256.  After SUB: C iff
pre_A ≥ src, Z iff (pre_A - src) mod 256 = 0.  AND/OR/XOR: Z iff the
8-bit result is 0, C cleared.  CMP: A unchanged, Z iff (pre_A - src)
mod 256 = 0, C iff pre_A ≥ src. -/
theorem claim_C2_alu_flag_laws (s : CPUState) (hwf : WF s)
    (hh : s.halted = false) (hl : s.loaded s.pc = true)
    (src : Nat) (s1 : CPUState)
    (hrs : resolveSource (s.mem s.pc % 4) (s.mem s.pc / 4 % 2) Reg.A
      (fetch s).2 = (src, s1)) :
    (aluLookup (s.mem s.pc / 8 % 32) = some ALUOp.ADD →
      ∃ s2, step s = .ok (true, s2) ∧ s2.a = (s.a + src) % 256 ∧
        (s2.z = true ↔ s2.a = 0) ∧ (s2.c = true ↔ 256 ≤ s.a + src)) ∧
    (aluLookup (s.mem s.pc / 8 % 32) = some ALUOp.SUB →
      ∃ s2, step s = .ok (true, s2) ∧
        s2.a = intMask8 ((s.a : Int) - (src : Int)) ∧
        (s2.c = true ↔ src ≤ s.a) ∧
        (s2.z = true ↔ ((s.a : Int) - (src : Int)) % 256 = 0)) ∧
    (aluLookup (s.mem s.pc / 8 % 32) = some ALUOp.AND →
      ∃ s2, step s = .ok (true, s2) ∧ s2.a = s.a.land src ∧
        (s2.z = true ↔ s2.a = 0) ∧ s2.c = false) ∧
    (aluLookup (s.mem s.pc / 8 % 32) = some ALUOp.OR →
      ∃ s2, step s = .ok (true, s2) ∧ s2.a = s.a.lor src ∧
        (s2.z = true ↔ s2.a = 0) ∧ s2.c = false) ∧
    (aluLookup (s.mem s.pc / 8 % 32) = some ALUOp.XOR →
      ∃ s2, step s = .ok (true, s2) ∧ s2.a = s.a.xor src ∧
        (s2.z = true ↔ s2.a = 0) ∧ s2.c = false) ∧
    (aluLookup (s.mem s.pc / 8 % 32) = some ALUOp.CMP →
      ∃ s2, step s = .ok (true, s2) ∧ s2.a = s.a ∧
        (s2.z = true ↔ ((s.a : Int) - (src : Int)) % 256 = 0) ∧
        (s2.c = true ↔ src ≤ s.a)) := by
  have hs1a : s1.a = s.a := by
    have := resolveSource_snd_a (s.mem s.pc % 4) (s.mem s.pc / 4 % 2) Reg.A
      (fetch s).2
    rw [hrs] at this
    exact this
  have hs1h : s1.halted = false := by
    have := resolveSource_snd_halted (s.mem s.pc % 4) (s.mem s.pc / 4 % 2)
      Reg.A (fetch s).2
    rw [hrs] at this
    rw [this]
    exact hh
  have hsrc : src < 256 := by
    have := resolveSource_fst_lt (s.mem s.pc % 4) (s.mem s.pc / 4 % 2) Reg.A
      (fetch s).2 hwf
    rw [hrs] at this
    exact this
  have ha : s.a < 256 := hwf.1
  refine ⟨?_, ?_, ?_, ?_, ?_, ?_⟩ <;> intro hop
  all_goals
    have he := execInstr_alu s _ hop
    rw [hrs] at he
    have hstep := step_ok_of_execInstr s hh hl _ he
    rw [aluExec_halted, hs1h] at hstep
  -- ADD
  · refine ⟨_, hstep, ?_, ?_, ?_⟩
    · show (s1.a + src) % 256 = (s.a + src) % 256
      rw [hs1a]
    · show ((s1.a + src) % 256 == 0) = true ↔ (s1.a + src) % 256 = 0
      simp
    · show (s1.a + src).testBit 8 = true ↔ 256 ≤ s.a + src
      rw [hs1a]
      exact testBit8_iff _ (by omega)
  -- SUB
  · refine ⟨_, hstep, ?_, ?_, ?_⟩
    · show intMask8 ((s1.a : Int) - src) = intMask8 ((s.a : Int) - src)
      rw [hs1a]
    · show decide (src ≤ s1.a) = true ↔ src ≤ s.a
      rw [hs1a]
      simp
    · show (intMask8 ((s1.a : Int) - src) == 0) = true ↔
        ((s.a : Int) - src) % 256 = 0
      rw [hs1a]
      simp [intMask8_eq_zero_iff]
  -- AND
  · refine ⟨_, hstep, ?_, ?_, rfl⟩
    · show s1.a.land src = s.a.land src
      rw [hs1a]
    · show (s1.a.land src % 256 == 0) = true ↔ s1.a.land src = 0
      have : s1.a.land src < 256 := lt_of_le_of_lt Nat.and_le_left
        (by rw [hs1a]; exact ha)
      simp [Nat.mod_eq_of_lt this]
  -- OR
  · refine ⟨_, hstep, ?_, ?_, rfl⟩
    · show s1.a.lor src = s.a.lor src
      rw [hs1a]
    · show (s1.a.lor src % 256 == 0) = true ↔ s1.a.lor src = 0
      have h1 : s1.a < 2 ^ 8 := by rw [hs1a]; exact ha
      have h2 : src < 2 ^ 8 := hsrc
      have : s1.a.lor src < 256 :=
        lt_of_lt_of_eq (Nat.or_lt_two_pow h1 h2) (by norm_num)
      simp [Nat.mod_eq_of_lt this]
  -- XOR
  · refine ⟨_, hstep, ?_, ?_, rfl⟩
    · show s1.a.xor src = s.a.xor src
      rw [hs1a]
    · show (s1.a.xor src % 256 == 0) = true ↔ s1.a.xor src = 0
      have h1 : s1.a < 2 ^ 8 := by rw [hs1a]; exact ha
      have h2 : src < 2 ^ 8 := hsrc
      have : s1.a.xor src < 256 :=
        lt_of_lt_of_eq (Nat.xor_lt_two_pow h1 h2) (by norm_num)
      simp [Nat.mod_eq_of_lt this]
  -- CMP
  · refine ⟨_, hstep, hs1a, ?_, ?_⟩
    · show (intMask8 ((s1.a : Int) - src) == 0) = true ↔
        ((s.a : Int) - src) % 256 = 0
      rw [hs1a]
      simp [intMask8_eq_zero_iff]
    · show decide (src ≤ s1.a) = true ↔ src ≤ s.a
      rw [hs1a]
      simp

/-- Witness for C2: ADD #5 executed with A = 3 sets A = 8, Z and C
clear. -/
theorem claim_C2_witness :
    ∃ s2,
      step (CPUState.mk 3 0 0 0 true true 0 [0, 0, 0, 0]
          (fun i => if i = 0 then 0x30 else if i = 1 then 5 else 0)
          (fun i => decide (i ≤ 1)) false 0 []) = .ok (true, s2) ∧
      s2.a = (3 + 5) % 256 ∧ (s2.z = true ↔ s2.a = 0) ∧
      (s2.c = true ↔ 256 ≤ 3 + 5) := by
  have h := (claim_C2_alu_flag_laws
    (CPUState.mk 3 0 0 0 true true 0 [0, 0, 0, 0]
      (fun i => if i = 0 then 0x30 else if i = 1 then 5 else 0)
      (fun i => decide (i ≤ 1)) false 0 [])
    ⟨by norm_num, by norm_num, by norm_num,
      fun i => by dsimp only; split <;> (try split) <;> norm_num⟩
    rfl (by simp) 5
    (CPUState.mk 3 0 0 2 true true 0 [0, 0, 0, 0]
      (fun i => if i = 0 then 0x30 else if i = 1 then 5 else 0)
      (fun i => decide (i ≤ 1)) false 0 [])
    rfl).1 rfl
  exact h

/-! ## Claim C5 -/

/-- One successful step of the simulator loop (the Bool is step's
"continue" result). -/
def StepRel (a b : CPUState) : Prop := ∃ c, step a = .ok (c, b)

/-- The states execution can reach by successful steps. -/
def Reaches : CPUState → CPUState → Prop := Relation.ReflTransGen StepRel

lemma step_halted_fix (a : CPUState) (h : a.halted = true) :
    step a = .ok (false, a) := by
  unfold step
  rw [if_pos h]

lemma step_ok_cycles_le (a : CPUState) (c : Bool) (b : CPUState)
    (h : step a = .ok (c, b)) : a.cycles ≤ b.cycles := by
  unfold step at h
  split at h
  · cases h
    exact Nat.le_refl _
  · split at h
    · cases h
    · split at h
      · cases h
      · rename_i s3 heq
        cases h
        have := (execInstr_frame a s3 heq).1
        dsimp only
        omega

lemma step_false_halted (a b : CPUState) (h : step a = .ok (false, b)) :
    b.halted = true := by
  unfold step at h
  split at h
  · rename_i hh
    cases h
    exact hh
  · split at h
    · cases h
    · split at h
      · cases h
      · rename_i s3 heq
        rw [Except.ok.injEq, Prod.mk.injEq] at h
        obtain ⟨h1, h2⟩ := h
        rw [← h2]
        dsimp only
        cases hh : s3.halted with
        | true => rfl
        | false => rw [hh] at h1; cases h1

lemma reaches_cycles_le (a b : CPUState) (h : Reaches a b) :
    a.cycles ≤ b.cycles := by
  induction h with
  | refl => exact Nat.le_refl _
  | tail hxy hyz ih =>
    obtain ⟨flag, hstep⟩ := hyz
    exact Nat.le_trans ih (step_ok_cycles_le _ _ _ hstep)

lemma reaches_halted_eq (a b : CPUState) (hh : a.halted = true)
    (h : Reaches a b) : b = a := by
  induction h with
  | refl => rfl
  | tail hxy hyz ih =>
    obtain ⟨flag, hstep⟩ := hyz
    rw [ih] at hstep
    rw [step_halted_fix a hh] at hstep
    rw [Except.ok.injEq, Prod.mk.injEq] at hstep
    exact hstep.2.symm

/-- C5 counterexample: a one-instruction program HLT at address 0, run
with max_cycles = 1, halts normally on its only step, yet run reports
the max-cycles failure and returns exit code 1; the claim says only runs
that exceed the budget without halting exit 1. -/
theorem claim_C5_counterexample :
    step (CPUState.mk 0 0 0 0 false false 0 [0, 0, 0, 0]
        (fun i => if i = 0 then 0xA8 else 0) (fun i => i == 0)
        false 0 []) =
      .ok (false, CPUState.mk 0 0 0 1 false false 0 [0, 0, 0, 0]
        (fun i => if i = 0 then 0xA8 else 0) (fun i => i == 0)
        true 1 []) ∧
    run 1 (CPUState.mk 0 0 0 0 false false 0 [0, 0, 0, 0]
        (fun i => if i = 0 then 0xA8 else 0) (fun i => i == 0)
        false 0 []) = 1 := by
  constructor
  · rfl
  · rw [run.eq_def, if_pos (by norm_num)]
    split
    · rfl
    · rename_i cont s3 heq
      rw [show step (CPUState.mk 0 0 0 0 false false 0 [0, 0, 0, 0]
        (fun i => if i = 0 then 0xA8 else 0) (fun i => i == 0)
        false 0 []) =
          .ok (false, CPUState.mk 0 0 0 1 false false 0 [0, 0, 0, 0]
            (fun i => if i = 0 then 0xA8 else 0) (fun i => i == 0)
            true 1 []) from rfl] at heq
      cases heq
      norm_num

/-- C5 (amended): run returns exit code 0 when execution reaches a
halted state whose cycle count is still strictly below max_cycles; a run
whose cycle count reaches max_cycles is reported as a failure with exit
code 1 even when its final step executed HLT (see the counterexample,
where the HLT step itself is the max_cycles-th cycle). -/
theorem claim_C5_run_amended (maxCycles : Nat) (s s2 : CPUState)
    (hr : Reaches s s2) (hhalt : s2.halted = true)
    (hc : s2.cycles < maxCycles) : run maxCycles s = 0 := by
  induction hr using Relation.ReflTransGen.head_induction_on with
  | refl =>
    rw [run.eq_def, if_pos hc]
    split
    · rename_i e heq
      rw [step_halted_fix s2 hhalt] at heq
      cases heq
    · rename_i cont s3 heq
      rw [step_halted_fix s2 hhalt] at heq
      cases heq
      simp only [Bool.false_eq_true, if_false]
      rw [if_neg (by omega)]
  | head hac hcb ih =>
    rename_i a c
    obtain ⟨cflag, hstep⟩ := hac
    have hacy := step_ok_cycles_le a cflag c hstep
    have hccy := reaches_cycles_le c s2 hcb
    rw [run.eq_def, if_pos (by omega)]
    split
    · rename_i e heq
      rw [hstep] at heq
      cases heq
    · rename_i cont s3 heq
      rw [hstep] at heq
      cases heq
      cases cflag with
      | false =>
        have hch : c.halted = true := step_false_halted a c hstep
        have hs2c : s2 = c := reaches_halted_eq c s2 hch hcb
        rw [hs2c] at hc
        simp only [Bool.false_eq_true, if_false]
        rw [if_neg (by omega)]
      | true =>
        simpa using ih

/-- Witness for C5 (amended): the same HLT program run with
max_cycles = 2 exits 0. -/
theorem claim_C5_witness :
    run 2 (CPUState.mk 0 0 0 0 false false 0 [0, 0, 0, 0]
        (fun i => if i = 0 then 0xA8 else 0) (fun i => i == 0)
        false 0 []) = 0 := by
  apply claim_C5_run_amended 2
    (CPUState.mk 0 0 0 0 false false 0 [0, 0, 0, 0]
        (fun i => if i = 0 then 0xA8 else 0) (fun i => i == 0)
        false 0 [])
    (CPUState.mk 0 0 0 1 false false 0 [0, 0, 0, 0]
        (fun i => if i = 0 then 0xA8 else 0) (fun i => i == 0)
        true 1 [])
  · exact Relation.ReflTransGen.head ⟨false, by rfl⟩ Relation.ReflTransGen.refl
  · rfl
  · norm_num

/-! ## Claim C10 -/

/-- The instruction body never raises the unloaded-memory fault: that
fault has the single raise site before the opcode fetch. -/
lemma execInstr_no_pcUnloaded (s : CPUState) (a : Nat) :
    execInstr s ≠ .error (.pcUnloaded a) := by
  intro h
  unfold execInstr resolveSource resolveDest push pop memWrite memRead
    setZOnly at h
  unfold fetch at h
  repeat' first
    | dsimp only at h
    | split at h
  all_goals try cases h
  all_goals rename_i heq
  all_goals split at heq
  all_goals cases heq

/-- The instruction body reads and writes every part of the state except
the loaded set, which it neither consults nor changes. -/
lemma execInstr_loaded_indep (s : CPUState) (L2 : Nat → Bool) :
    execInstr { s with loaded := L2 } =
      (execInstr s).map (fun t => { t with loaded := L2 }) := by
  unfold execInstr resolveSource resolveDest push pop memWrite memRead
    setZOnly getReg setReg aluExec setZc setZClearC regModeMap rIdx
  unfold fetch
  dsimp only
  repeat' first
    | rfl
    | dsimp only
    | (split <;> try (rename_i heq; first
          | rw [heq]
          | rw [if_pos heq]
          | rw [if_neg heq]
          | skip))
    | simp only [Except.map]
  -- residual branch: the fixed-opcode chain, walked explicitly
  all_goals by_cases h96 : s.mem s.pc = 96
  · rw [if_pos h96, if_pos h96]
  · rw [if_neg h96, if_neg h96]
    cases hbc : branchCond (s.mem s.pc) with
    | some cond =>
      all_goals dsimp only
      all_goals by_cases hcz : cond s.z s.c = true
      · rw [if_pos hcz, if_pos hcz]
      · rw [if_neg hcz, if_neg hcz]
    | none =>
      all_goals dsimp only
      all_goals by_cases h112 : s.mem s.pc = 112
      · rw [if_pos h112, if_pos h112]
        all_goals by_cases hsp : 4 ≤ s.sp
        · rw [if_pos hsp, if_pos hsp]
        · rw [if_neg hsp, if_neg hsp]
      · rw [if_neg h112, if_neg h112]
        all_goals by_cases h120 : s.mem s.pc = 120
        · rw [if_pos h120, if_pos h120]
          all_goals by_cases hsp : s.sp ≤ 0
          · rw [if_pos hsp, if_pos hsp]
          · rw [if_neg hsp, if_neg hsp]
        · rw [if_neg h120, if_neg h120]
          all_goals by_cases h16 : s.mem s.pc / 8 % 32 = 16
          · rw [if_pos h16, if_pos h16]
            cases hre : regEncoding (s.mem s.pc % 4) with
            | some r =>
              all_goals dsimp only
              all_goals by_cases hsp : 4 ≤ s.sp
              · rw [if_pos hsp, if_pos hsp]
              · rw [if_neg hsp, if_neg hsp]
                all_goals cases r <;> rfl
            | none => rfl
          · rw [if_neg h16, if_neg h16]
            all_goals by_cases h17 : s.mem s.pc / 8 % 32 = 17
            · rw [if_pos h17, if_pos h17]
              cases hre : regEncoding (s.mem s.pc % 4) with
              | some r =>
                all_goals dsimp only
                all_goals by_cases hsp : s.sp ≤ 0
                · rw [if_pos hsp, if_pos hsp]
                · rw [if_neg hsp, if_neg hsp]
                  all_goals dsimp only
                  all_goals cases r <;> rfl
              | none => rfl
            · rw [if_neg h17, if_neg h17]
              all_goals by_cases h18 : s.mem s.pc / 8 % 32 = 18
              · rw [if_pos h18, if_pos h18]
                cases hre : regEncoding (s.mem s.pc % 4) with
                | some r =>
                  all_goals dsimp only
                  all_goals cases r <;> rfl
                | none => rfl
              · rw [if_neg h18, if_neg h18]
                all_goals by_cases h19 : s.mem s.pc / 8 % 32 = 19
                · rw [if_pos h19, if_pos h19]
                  cases hre : regEncoding (s.mem s.pc % 4) with
                  | some r =>
                    all_goals dsimp only
                    all_goals cases r <;> rfl
                  | none => rfl
                · rw [if_neg h19, if_neg h19]
                  all_goals by_cases h160 : s.mem s.pc = 160
                  · rw [if_pos h160, if_pos h160]
                  · rw [if_neg h160, if_neg h160]
                    all_goals by_cases h168 : s.mem s.pc = 168
                    · rw [if_pos h168, if_pos h168]
                    · rw [if_neg h168, if_neg h168]

/-- C10: for a non-halted CPU, step raises the unloaded-PC fault exactly
when the start-of-step PC is outside the loaded set, the faulting address
is always that PC, and no other address's loadedness is consulted: any
change of the loaded set away from the current PC (in particular at the
operand byte of a 2-byte instruction) leaves the outcome of step
unchanged apart from carrying the new loaded set. -/
theorem claim_C10_pc_unloaded_gate (s : CPUState) (L2 : Nat → Bool)
    (hh : s.halted = false) (hag : L2 s.pc = s.loaded s.pc) :
    (step s = .error (.pcUnloaded s.pc) ↔ s.loaded s.pc = false) ∧
    (∀ a, step s = .error (.pcUnloaded a) → a = s.pc) ∧
    step { s with loaded := L2 } =
      (step s).map (fun p => (p.1, { p.2 with loaded := L2 })) := by
  refine ⟨?_, ?_, ?_⟩
  · unfold step
    rw [hh]
    simp only [Bool.false_eq_true, if_false]
    by_cases hld : s.loaded s.pc = false
    · rw [if_pos hld]
      simp [hld]
    · rw [if_neg hld]
      constructor
      · intro h
        exfalso
        cases hx : execInstr s with
        | error f =>
          rw [hx] at h
          rw [Except.error.injEq] at h
          subst h
          exact execInstr_no_pcUnloaded s s.pc hx
        | ok s2 =>
          rw [hx] at h
          cases h
      · intro h
        exact absurd h hld
  · intro a h
    unfold step at h
    rw [hh] at h
    simp only [Bool.false_eq_true, if_false] at h
    by_cases hld : s.loaded s.pc = false
    · rw [if_pos hld] at h
      cases h
      rfl
    · rw [if_neg hld] at h
      cases hx : execInstr s with
      | error f =>
        rw [hx] at h
        rw [Except.error.injEq] at h
        subst h
        exact absurd hx (execInstr_no_pcUnloaded s a)
      | ok s2 =>
        rw [hx] at h
        cases h
  · unfold step
    dsimp only
    have hhne : ¬ (s.halted = true) := by rw [hh]; exact Bool.false_ne_true
    rw [if_neg hhne, if_neg hhne]
    rw [hag]
    by_cases hld : s.loaded s.pc = false
    · rw [if_pos hld, if_pos hld]
      rfl
    · rw [if_neg hld, if_neg hld]
      rw [execInstr_loaded_indep s L2]
      cases hx : execInstr s with
      | error f => rfl
      | ok s2 => rfl

def stW10 : CPUState :=
  CPUState.mk 0 0 0 0 false false 0 [0, 0, 0, 0] (fun _ => 0xA0)
    (fun a => a == 0) false 0 []

theorem claim_C10_witness :
    (step stW10 = .error (.pcUnloaded stW10.pc) ↔
      stW10.loaded stW10.pc = false) ∧
    (∀ a, step stW10 = .error (.pcUnloaded a) → a = stW10.pc) ∧
    step { stW10 with loaded := fun a => decide (a < 2) } =
      (step stW10).map
        (fun p => (p.1, { p.2 with loaded := fun a => decide (a < 2) })) :=
  claim_C10_pc_unloaded_gate stW10 (fun a => decide (a < 2)) rfl rfl


/-! ## Claim C7 -/

/-- The operand mode and register name that parse_operand assigns depend
only on the operand text, not on the symbol table (symbols only decide
between the int and unresolved-symbol value forms). -/
def parseOperandMR (text0 : List Char) : Option (OpMode × Option (List Char)) :=
  let text := pyStrip text0
  let upper := text.map Char.toUpper
  if upper = chars "A" ∨ upper = chars "R0" ∨ upper = chars "R1" then
    some (.reg, some upper)
  else
    match indexedGroups text with
    | some (regChars, _) => some (.indexed, some (regChars.map Char.toUpper))
    | none =>
    match directGroup text with
    | some _ => some (.direct, none)
    | none =>
    match immGroup text with
    | some _ => some (.imm, none)
    | none => some (.value, none)

lemma parseOperand_mr (t : List Char) (symbols : List (List Char × Int))
    (m : OpMode) (r : Option (List Char)) (v : OpVal)
    (h : parseOperand t symbols = .ok (m, r, v)) :
    parseOperandMR t = some (m, r) := by
  unfold parseOperand at h
  unfold parseOperandMR
  dsimp only at h ⊢
  by_cases hreg : (pyStrip t).map Char.toUpper = chars "A" ∨
      (pyStrip t).map Char.toUpper = chars "R0" ∨
      (pyStrip t).map Char.toUpper = chars "R1"
  · rw [if_pos hreg] at h
    rw [if_pos hreg]
    cases h
    rfl
  · rw [if_neg hreg] at h
    rw [if_neg hreg]
    cases hidx : indexedGroups (pyStrip t) with
    | some p =>
      rw [hidx] at h
      obtain ⟨rc, og⟩ := p
      dsimp only at h ⊢
      cases og with
      | some g =>
        dsimp only at h
        cases hn : parseNumber g symbols with
        | error e => rw [hn] at h; cases h
        | ok o =>
          rw [hn] at h
          cases o <;> dsimp only at h <;> cases h <;> rfl
      | none =>
        dsimp only at h
        cases h
        rfl
    | none =>
      rw [hidx] at h
      dsimp only at h ⊢
      cases hdir : directGroup (pyStrip t) with
      | some g =>
        rw [hdir] at h
        dsimp only at h ⊢
        cases hn : parseNumber g symbols with
        | error e => rw [hn] at h; cases h
        | ok o =>
          rw [hn] at h
          cases o <;> dsimp only at h <;> cases h <;> rfl
      | none =>
        rw [hdir] at h
        dsimp only at h ⊢
        cases him : immGroup (pyStrip t) with
        | some g =>
          rw [him] at h
          dsimp only at h ⊢
          cases hn : parseNumber g symbols with
          | error e => rw [hn] at h; cases h
          | ok o =>
            rw [hn] at h
            cases o <;> dsimp only at h <;> cases h <;> rfl
        | none =>
          rw [him] at h
          dsimp only at h ⊢
          cases hn : parseNumber (pyStrip t) symbols with
          | error e => rw [hn] at h; cases h
          | ok o =>
            rw [hn] at h
            cases o <;> dsimp only at h <;> cases h <;> rfl

lemma encodeLdSt_oper (isStore : Bool) (p : Reg) (mode : OpMode)
    (oreg : Option Reg) (v : Int) (opc : Nat) (oper : Option Nat)
    (h : encodeLdSt isStore p mode oreg v = .ok (opc, oper)) :
    (oper = none ∧ mode = OpMode.reg) ∨
      ((∃ b, oper = some b) ∧ mode ≠ OpMode.reg) := by
  unfold encodeLdSt at h
  cases mode <;> (try dsimp only at h)
  · cases isStore <;> (try dsimp only at h)
    · cases h; exact Or.inr ⟨⟨_, rfl⟩, by decide⟩
    · cases h
  · cases oreg <;> (try dsimp only at h)
    · cases h
    · rename_i o
      cases hrb : regModeRBit p o <;> rw [hrb] at h <;> (try dsimp only at h)
      · cases h
      · cases h; exact Or.inl ⟨rfl, rfl⟩
  · cases h; exact Or.inr ⟨⟨_, rfl⟩, by decide⟩
  · cases h; exact Or.inr ⟨⟨_, rfl⟩, by decide⟩
  · cases h

lemma encodeAlu_oper (mnop : ALUOp) (mode : OpMode) (oreg : Option Reg)
    (v : Int) (opc : Nat) (oper : Option Nat)
    (h : encodeAlu mnop mode oreg v = .ok (opc, oper)) :
    (oper = none ∧ mode = OpMode.reg) ∨
      ((∃ b, oper = some b) ∧ mode ≠ OpMode.reg) := by
  unfold encodeAlu at h
  cases mode <;> (try dsimp only at h)
  · cases h; exact Or.inr ⟨⟨_, rfl⟩, by decide⟩
  · split at h
    · cases h; exact Or.inl ⟨rfl, rfl⟩
    · cases h
  · cases h; exact Or.inr ⟨⟨_, rfl⟩, by decide⟩
  · cases h; exact Or.inr ⟨⟨_, rfl⟩, by decide⟩
  · cases h

lemma dbEmit_length (symbols : List (List Char × Int)) (lineNum : Nat)
    (items : List (List Char)) (bs : List Nat) (es : List (Nat × AErr))
    (h : dbEmit symbols lineNum items = .ok (bs, es)) :
    bs.length = (items.map dbItemSize).sum := by
  induction items generalizing bs es with
  | nil =>
    unfold dbEmit at h
    cases h
    rfl
  | cons item rest ih =>
    unfold dbEmit at h
    by_cases hq : isQuoteStart item = true
    · rw [if_pos hq] at h
      dsimp only at h
      cases hr : dbEmit symbols lineNum rest with
      | error e => rw [hr] at h; cases h
      | ok pr =>
        rw [hr] at h
        obtain ⟨bs2, es2⟩ := pr
        dsimp only at h
        cases h
        simp [dbItemSize, hq, ih bs2 es2 hr] <;> omega
    · rw [if_neg hq] at h
      cases hn : parseNumber item symbols with
      | error e => rw [hn] at h; cases h
      | ok o =>
        rw [hn] at h
        cases o with
        | some w =>
          dsimp only at h
          cases hr : dbEmit symbols lineNum rest with
          | error e => rw [hr] at h; cases h
          | ok pr =>
            rw [hr] at h
            obtain ⟨bs2, es2⟩ := pr
            dsimp only at h
            cases h
            simp [dbItemSize, hq, ih bs2 es2 hr] <;> omega
        | none =>
          dsimp only at h
          rcases hrv : resolveVal symbols lineNum (OpVal.symV item) with ⟨vv, ee⟩
          rw [hrv] at h
          dsimp only at h
          cases hr : dbEmit symbols lineNum rest with
          | error e => rw [hr] at h; cases h
          | ok pr =>
            rw [hr] at h
            obtain ⟨bs2, es2⟩ := pr
            dsimp only at h
            cases h
            simp [dbItemSize, hq, ih bs2 es2 hr] <;> omega

lemma fixedOpcodes_name (mn : List Char) (k : Nat)
    (h : fixedOpcodes mn = some k) :
    noOperand mn = true ∨ (mn = chars "JMP" ∨ mn = chars "CALL") ∨
      isBranchMn mn = true := by
  unfold fixedOpcodes at h
  by_cases c1 : mn = chars "JMP"
  · exact Or.inr (Or.inl (Or.inl c1))
  rw [if_neg c1] at h
  by_cases c2 : mn = chars "BZ"
  · subst c2; exact Or.inr (Or.inr rfl)
  rw [if_neg c2] at h
  by_cases c3 : mn = chars "BNZ"
  · subst c3; exact Or.inr (Or.inr rfl)
  rw [if_neg c3] at h
  by_cases c4 : mn = chars "BC"
  · subst c4; exact Or.inr (Or.inr rfl)
  rw [if_neg c4] at h
  by_cases c5 : mn = chars "BNC"
  · subst c5; exact Or.inr (Or.inr rfl)
  rw [if_neg c5] at h
  by_cases c6 : mn = chars "CALL"
  · exact Or.inr (Or.inl (Or.inr c6))
  rw [if_neg c6] at h
  by_cases c7 : mn = chars "RET"
  · subst c7; exact Or.inl rfl
  rw [if_neg c7] at h
  by_cases c8 : mn = chars "PUSH A"
  · subst c8; exact Or.inl rfl
  rw [if_neg c8] at h
  by_cases c9 : mn = chars "PUSH R0"
  · subst c9; exact Or.inl rfl
  rw [if_neg c9] at h
  by_cases c10 : mn = chars "PUSH R1"
  · subst c10; exact Or.inl rfl
  rw [if_neg c10] at h
  by_cases c11 : mn = chars "POP A"
  · subst c11; exact Or.inl rfl
  rw [if_neg c11] at h
  by_cases c12 : mn = chars "POP R0"
  · subst c12; exact Or.inl rfl
  rw [if_neg c12] at h
  by_cases c13 : mn = chars "POP R1"
  · subst c13; exact Or.inl rfl
  rw [if_neg c13] at h
  by_cases c14 : mn = chars "INC A"
  · subst c14; exact Or.inl rfl
  rw [if_neg c14] at h
  by_cases c15 : mn = chars "INC R0"
  · subst c15; exact Or.inl rfl
  rw [if_neg c15] at h
  by_cases c16 : mn = chars "INC R1"
  · subst c16; exact Or.inl rfl
  rw [if_neg c16] at h
  by_cases c17 : mn = chars "DEC A"
  · subst c17; exact Or.inl rfl
  rw [if_neg c17] at h
  by_cases c18 : mn = chars "DEC R0"
  · subst c18; exact Or.inl rfl
  rw [if_neg c18] at h
  by_cases c19 : mn = chars "DEC R1"
  · subst c19; exact Or.inl rfl
  rw [if_neg c19] at h
  by_cases c20 : mn = chars "NOP"
  · subst c20; exact Or.inl rfl
  rw [if_neg c20] at h
  by_cases c21 : mn = chars "HLT"
  · subst c21; exact Or.inl rfl
  rw [if_neg c21] at h
  exact Option.noConfusion h

lemma isBranch_fixed (mn : List Char) (h : isBranchMn mn = true) :
    (fixedOpcodes mn).isSome = true := by
  unfold isBranchMn at h
  simp only [Bool.or_eq_true, decide_eq_true_eq] at h
  rcases h with ((h | h) | h) | h <;> subst h <;> rfl

/-- C7 counterexample: for the erroring line `ST A, #5` pass 1 predicts
2 bytes via instruction_size, but pass 2 emits the single placeholder
byte 0 alongside the encoding error, so the listing PCs diverge. -/
theorem claim_C7_counterexample :
    instructionSize (chars "ST") (some (chars "A, #5")) = .ok 2 ∧
    pass2Line [] 0 1 (chars "ST") (some (chars "A, #5")) =
      .ok ([0], [(1, .encoding .stImmediateMode)]) := by
  constructor
  · rfl
  · rfl


lemma ldst_emit_len (isStore : Bool) (p : Reg) (m : OpMode)
    (oreg : Option Reg) (v : Int) (X : OpMode) (hX : X ≠ OpMode.reg)
    (es1 : List (Nat × AErr)) (bytes : List Nat) (lineNum : Nat)
    (h : (match encodeLdSt isStore p (if m = OpMode.value then X else m)
            oreg v with
          | .ok (opc, oper) =>
            (.ok (opc :: (match oper with | some b => [b] | none => []), es1) :
              Except PyErr (List Nat × List (Nat × AErr)))
          | .error e => .ok ([0], es1 ++ [(lineNum, AErr.encoding e)])) =
         .ok (bytes, [])) :
    bytes.length = if m = OpMode.reg then 1 else 2 := by
  split at h
  · rename_i opc oper heq
    rw [Except.ok.injEq, Prod.mk.injEq] at h
    obtain ⟨hb, hes⟩ := h
    subst hb
    rcases encodeLdSt_oper _ _ _ _ _ _ _ heq with ⟨hn, hmode⟩ | ⟨⟨b, hs⟩, hmode⟩
    · subst hn
      have hm : m = OpMode.reg := by
        by_cases hmv : m = OpMode.value
        · rw [if_pos hmv] at hmode
          exact absurd hmode hX
        · rw [if_neg hmv] at hmode
          exact hmode
      rw [if_pos hm]
      rfl
    · subst hs
      have hm : ¬ m = OpMode.reg :=
        fun hmr => hmode (by rw [hmr]; exact if_neg (by decide))
      rw [if_neg hm]
      rfl
  · rename_i e heq
    rw [Except.ok.injEq, Prod.mk.injEq] at h
    obtain ⟨hb, hes⟩ := h
    exact absurd hes (by simp)

lemma alu_emit_len (mnop : ALUOp) (m : OpMode) (oreg : Option Reg) (v : Int)
    (es1 : List (Nat × AErr)) (bytes : List Nat) (lineNum : Nat)
    (h : (match encodeAlu mnop (if m = OpMode.value then OpMode.imm else m)
            oreg v with
          | .ok (opc, oper) =>
            (.ok (opc :: (match oper with | some b => [b] | none => []), es1) :
              Except PyErr (List Nat × List (Nat × AErr)))
          | .error e => .ok ([0], es1 ++ [(lineNum, AErr.encoding e)])) =
         .ok (bytes, [])) :
    bytes.length = if m = OpMode.reg then 1 else 2 := by
  split at h
  · rename_i opc oper heq
    rw [Except.ok.injEq, Prod.mk.injEq] at h
    obtain ⟨hb, hes⟩ := h
    subst hb
    rcases encodeAlu_oper _ _ _ _ _ _ heq with ⟨hn, hmode⟩ | ⟨⟨b, hs⟩, hmode⟩
    · subst hn
      have hm : m = OpMode.reg := by
        by_cases hmv : m = OpMode.value
        · rw [if_pos hmv] at hmode
          exact absurd hmode (by decide)
        · rw [if_neg hmv] at hmode
          exact hmode
      rw [if_pos hm]
      rfl
    · subst hs
      have hm : ¬ m = OpMode.reg :=
        fun hmr => hmode (by rw [hmr]; exact if_neg (by decide))
      rw [if_neg hm]
      rfl
  · rename_i e heq
    rw [Except.ok.injEq, Prod.mk.injEq] at h
    obtain ⟨hb, hes⟩ := h
    exact absurd hes (by simp)

/-- C7 (amended): on every line that pass 2 completes without recording a
diagnostic, the emitted byte count equals the size pass 1 predicted via
instruction_size; on erroring lines the placeholder can diverge from the
prediction (see the counterexample). -/
theorem claim_C7_sizes_agree_amended (symbols : List (List Char × Int))
    (startPc : Int) (lineNum n : Nat) (mn : List Char)
    (op : Option (List Char)) (bytes : List Nat)
    (h2 : pass2Line symbols startPc lineNum mn op = .ok (bytes, []))
    (h1 : instructionSize mn op = .ok n) :
    bytes.length = n := by
  unfold pass2Line at h2
  unfold instructionSize at h1
  by_cases hORG : mn = chars ".ORG"
  · rw [if_pos hORG] at h1 h2
    cases h1
    split at h2
    · cases h2
    · cases h2
      rfl
  · rw [if_neg hORG] at h1 h2
    by_cases hEQU : mn = chars ".EQU"
    · rw [if_pos hEQU] at h1 h2
      cases h1
      cases h2
      rfl
    · rw [if_neg hEQU] at h1 h2
      by_cases hDB : mn = chars ".DB"
      · rw [if_pos hDB] at h1 h2
        by_cases hop : optNonempty op = true
        · rw [if_pos hop] at h1 h2
          dsimp only at h1
          cases h1
          exact dbEmit_length symbols lineNum _ bytes [] h2
        · rw [if_neg hop] at h1 h2
          cases h1
          cases h2
          rfl
      · rw [if_neg hDB] at h1 h2
        by_cases hDS : mn = chars ".DS"
        · rw [if_pos hDS] at h1 h2
          by_cases hop : optNonempty op = true
          · rw [if_pos hop] at h1 h2
            dsimp only at h1 h2
            by_cases hq : dsQuoted (pyStrip (op.getD [])) = true
            · rw [if_pos hq] at h1 h2
              cases hd : decodeString ((pyStrip (op.getD [])).drop 1).dropLast with
              | ok l =>
                rw [hd] at h1 h2
                dsimp only at h2
                cases h1
                cases h2
                simp
              | error e =>
                rw [hd] at h1
                cases h1
            · rw [if_neg hq] at h1 h2
              dsimp only at h2
              cases h2
          · rw [if_neg hop] at h1 h2
            dsimp only at h2
            cases h2
        · rw [if_neg hDS] at h1 h2
          by_cases hLS : mn = chars "LD" ∨ mn = chars "ST"
          · rw [if_pos hLS] at h1 h2
            dsimp only at h1 h2
            rcases hplo : parseLdStOperand op with ⟨regOpt, srcText⟩
            rw [hplo] at h1 h2
            dsimp only at h1 h2
            by_cases hrn : (regOpt.bind toRegName).isNone = true
            · rw [if_pos hrn] at h2
              cases h2
            · rw [if_neg hrn] at h2
              cases srcText with
              | none =>
                dsimp only at h2
                cases h2
              | some srcT =>
                dsimp only at h1 h2
                unfold operandSize at h1
                dsimp only at h1
                cases hp1 : parseOperand srcT [] with
                | error e => rw [hp1] at h1; cases h1
                | ok t1 =>
                  rw [hp1] at h1
                  obtain ⟨m1, r1, v1⟩ := t1
                  dsimp only at h1
                  cases h1
                  cases hp2 : parseOperand srcT symbols with
                  | error e => rw [hp2] at h2; cases h2
                  | ok t2 =>
                    rw [hp2] at h2
                    obtain ⟨m2, rc2, v2⟩ := t2
                    dsimp only at h2
                    have hmr1 := parseOperand_mr srcT [] m1 r1 v1 hp1
                    have hmr2 := parseOperand_mr srcT symbols m2 rc2 v2 hp2
                    rw [hmr1, Option.some.injEq, Prod.mk.injEq] at hmr2
                    obtain ⟨hm, hrr⟩ := hmr2
                    subst hm
                    cases v2 with
                    | symV s =>
                      dsimp only at h2
                      rcases hrv : resolveVal symbols lineNum (OpVal.symV s)
                        with ⟨vv, ee⟩
                      rw [hrv] at h2
                      dsimp only at h2
                      exact ldst_emit_len _ _ m1 _ _
                        (if mn = chars "ST" then OpMode.direct else OpMode.imm)
                        (by split <;> decide) _ bytes lineNum h2
                    | intV i =>
                      dsimp only at h2
                      exact ldst_emit_len _ _ m1 _ _
                        (if mn = chars "ST" then OpMode.direct else OpMode.imm)
                        (by split <;> decide) _ bytes lineNum h2
                    | noneV =>
                      dsimp only at h2
                      exact ldst_emit_len _ _ m1 _ _
                        (if mn = chars "ST" then OpMode.direct else OpMode.imm)
                        (by split <;> decide) _ bytes lineNum h2
          · rw [if_neg hLS] at h1 h2
            by_cases hCF : optNonempty op ∧ (fixedOpcodes (mn ++ ' ' ::
                (pyStrip (op.getD [])).map Char.toUpper)).isSome
            · rw [if_pos hCF] at h1 h2
              cases h1
              cases h2
              rfl
            · rw [if_neg hCF] at h1 h2
              by_cases hFX : (fixedOpcodes mn).isSome = true
              · rw [if_pos hFX] at h1
                by_cases hNO : noOperand mn = true
                · rw [if_pos hNO] at h1
                  cases h1
                  rw [if_pos ⟨hNO, hFX⟩] at h2
                  cases h2
                  rfl
                · rw [if_neg hNO] at h1
                  cases h1
                  rw [if_neg (fun hc => hNO hc.1)] at h2
                  by_cases hJC : mn = chars "JMP" ∨ mn = chars "CALL"
                  · rw [if_pos hJC] at h2
                    cases op with
                    | none =>
                      dsimp only at h2
                      cases h2
                    | some o =>
                      dsimp only at h2
                      cases hp : parseOperand o symbols with
                      | error e => rw [hp] at h2; cases h2
                      | ok t =>
                        rw [hp] at h2
                        obtain ⟨mx, rx, vx⟩ := t
                        dsimp only at h2
                        rcases hrv : resolveVal symbols lineNum vx with ⟨vv, ee⟩
                        rw [hrv] at h2
                        dsimp only at h2
                        cases vv with
                        | none => cases h2
                        | some tval =>
                          dsimp only at h2
                          rw [Except.ok.injEq, Prod.mk.injEq] at h2
                          obtain ⟨hb, hes⟩ := h2
                          subst hb
                          rfl
                  · rw [if_neg hJC] at h2
                    by_cases hBR : isBranchMn mn = true
                    · rw [if_pos hBR] at h2
                      cases op with
                      | none =>
                        dsimp only at h2
                        cases h2
                      | some o =>
                        dsimp only at h2
                        cases hp : parseOperand o symbols with
                        | error e => rw [hp] at h2; cases h2
                        | ok t =>
                          rw [hp] at h2
                          obtain ⟨mx, rx, vx⟩ := t
                          dsimp only at h2
                          rcases hrv : resolveVal symbols lineNum vx with ⟨vv, ee⟩
                          rw [hrv] at h2
                          dsimp only at h2
                          cases vv with
                          | none => cases h2
                          | some tval =>
                            dsimp only at h2
                            split at h2
                            · rw [Except.ok.injEq, Prod.mk.injEq] at h2
                              obtain ⟨hb, hes⟩ := h2
                              exact absurd hes (by simp)
                            · rw [Except.ok.injEq, Prod.mk.injEq] at h2
                              obtain ⟨hb, hes⟩ := h2
                              subst hb
                              rfl
                    · exfalso
                      rw [Option.isSome_iff_exists] at hFX
                      obtain ⟨k, hk⟩ := hFX
                      rcases fixedOpcodes_name mn k hk with hno | hjc | hbr
                      · exact hNO hno
                      · exact hJC hjc
                      · exact hBR hbr
              · rw [if_neg hFX] at h1
                rw [if_neg (fun hc => hFX hc.2)] at h2
                rw [if_neg (fun hc => hFX (by
                  rcases hc with h | h <;> subst h <;> rfl))] at h2
                rw [if_neg (fun hb => hFX (isBranch_fixed mn hb))] at h2
                cases ha : aluByName mn with
                | some aop =>
                  rw [ha] at h2
                  rw [if_pos (by rw [ha]; rfl)] at h1
                  cases op with
                  | none =>
                    dsimp only at h2
                    cases h2
                  | some o =>
                    dsimp only at h1 h2
                    unfold operandSize at h1
                    dsimp only at h1
                    cases hp1 : parseOperand o [] with
                    | error e => rw [hp1] at h1; cases h1
                    | ok t1 =>
                      rw [hp1] at h1
                      obtain ⟨m1, r1, v1⟩ := t1
                      dsimp only at h1
                      cases h1
                      cases hp2 : parseOperand o symbols with
                      | error e => rw [hp2] at h2; cases h2
                      | ok t2 =>
                        rw [hp2] at h2
                        obtain ⟨m2, rc2, v2⟩ := t2
                        dsimp only at h2
                        have hmr1 := parseOperand_mr o [] m1 r1 v1 hp1
                        have hmr2 := parseOperand_mr o symbols m2 rc2 v2 hp2
                        rw [hmr1, Option.some.injEq, Prod.mk.injEq] at hmr2
                        obtain ⟨hm, hrr⟩ := hmr2
                        subst hm
                        cases v2 with
                        | symV s =>
                          dsimp only at h2
                          rcases hrv : resolveVal symbols lineNum (OpVal.symV s)
                            with ⟨vv, ee⟩
                          rw [hrv] at h2
                          dsimp only at h2
                          exact alu_emit_len aop m1 _ _ _ bytes lineNum h2
                        | intV i =>
                          dsimp only at h2
                          exact alu_emit_len aop m1 _ _ _ bytes lineNum h2
                        | noneV =>
                          dsimp only at h2
                          exact alu_emit_len aop m1 _ _ _ bytes lineNum h2
                | none =>
                  rw [ha] at h2
                  cases h2

theorem claim_C7_witness :
    pass2Line [] 0 1 (chars "LD") (some (chars "A, #5")) = .ok ([0, 5], []) ∧
    instructionSize (chars "LD") (some (chars "A, #5")) = .ok 2 ∧
    ([0, 5] : List Nat).length = 2 :=
  ⟨rfl, rfl,
    claim_C7_sizes_agree_amended [] 0 1 2 (chars "LD")
      (some (chars "A, #5")) [0, 5] rfl rfl⟩


/-! ## Claim C4: string-level helpers -/

/-- "\n".join on the line level. -/
def joinNL : List (List Char) → List Char
  | [] => []
  | [l] => l
  | l :: l2 :: rest => l ++ '\n' :: joinNL (l2 :: rest)

lemma intercalate_eq_joinNL (ls : List (List Char)) :
    List.intercalate ['\n'] ls = joinNL ls := by
  induction ls with
  | nil => rfl
  | cons l rest ih =>
    cases rest with
    | nil => simp [List.intercalate, List.intersperse, joinNL]
    | cons l2 rest2 =>
      rw [joinNL]
      rw [← ih]
      simp [List.intercalate, List.intersperse]

lemma splitlinesGo_cons (cur : List Char) (c : Char) (rest : List Char)
    (hc1 : c ≠ '\n') (hc2 : c ≠ '\r') :
    splitlinesGo cur (c :: rest) = splitlinesGo (c :: cur) rest := by
  rw [splitlinesGo.eq_def]
  split
  all_goals first
    | rfl
    | (rename_i heq
       first
         | (rw [List.cons.injEq] at heq
            first
              | exact absurd heq.1 hc1
              | exact absurd heq.1 hc2
              | (obtain ⟨hh1, hh2⟩ := heq
                 subst hh1
                 subst hh2
                 rfl))
         | cases heq)

lemma splitlinesGo_append (l : List Char) (cur : List Char) (s : List Char)
    (hl : ∀ c ∈ l, c ≠ '\n' ∧ c ≠ '\r') :
    splitlinesGo cur (l ++ s) = splitlinesGo (l.reverse ++ cur) s := by
  induction l generalizing cur with
  | nil => rfl
  | cons c t ih =>
    have hc := hl c (List.mem_cons_self c t)
    rw [List.cons_append, splitlinesGo_cons cur c (t ++ s) hc.1 hc.2]
    rw [ih (c :: cur) (fun x hx => hl x (List.mem_cons_of_mem c hx))]
    simp

lemma splitlinesGo_nl (cur : List Char) (t : List Char) (ht : t ≠ []) :
    splitlinesGo cur ('\n' :: t) = cur.reverse :: splitlinesGo [] t := by
  cases t with
  | nil => exact absurd rfl ht
  | cons c t2 => rfl

lemma pySplitlines_ne (text : List Char) (h : text ≠ []) :
    pySplitlines text = splitlinesGo [] text := by
  cases text with
  | nil => exact absurd rfl h
  | cons c t => rfl

lemma pySplitlines_join (lines : List (List Char))
    (h : ∀ l ∈ lines, l ≠ [] ∧ ∀ c ∈ l, c ≠ '\n' ∧ c ≠ '\r')
    (hne : lines ≠ []) :
    pySplitlines (joinNL lines ++ ['\n']) = lines := by
  induction lines with
  | nil => exact absurd rfl hne
  | cons l rest ih =>
    obtain ⟨hl0, hlc⟩ := h l (List.mem_cons_self l rest)
    cases rest with
    | nil =>
      rw [joinNL]
      rw [pySplitlines_ne _ (by simp [hl0])]
      rw [splitlinesGo_append l [] ['\n'] hlc]
      simp [splitlinesGo]
    | cons l2 rest2 =>
      rw [joinNL]
      have htail : joinNL (l2 :: rest2) ++ ['\n'] ≠ [] := by simp
      rw [pySplitlines_ne _ (by simp [hl0])]
      rw [List.append_assoc, List.cons_append]
      rw [splitlinesGo_append l [] ('\n' :: (joinNL (l2 :: rest2) ++ ['\n'])) hlc]
      rw [splitlinesGo_nl _ _ htail]
      rw [← pySplitlines_ne _ htail]
      rw [ih (fun x hx => h x (List.mem_cons_of_mem l hx)) (by simp)]
      simp

lemma hexDigit_facts (n : Nat) (h : n < 16) :
    hexDigit n ≠ '\n' ∧ hexDigit n ≠ '\r' ∧ isPySpace (hexDigit n) = false := by
  interval_cases n <;> refine ⟨by decide, by decide, by decide⟩

lemma bytesHex_chars (bs : List Nat) (h : ∀ b ∈ bs, b < 256) :
    ∀ c ∈ bytesHex bs,
      c ≠ '\n' ∧ c ≠ '\r' ∧ isPySpace c = false := by
  intro c hc
  unfold bytesHex at hc
  rw [List.mem_flatten] at hc
  obtain ⟨l, hl, hcl⟩ := hc
  rw [List.mem_map] at hl
  obtain ⟨b, hb, hbl⟩ := hl
  have hb256 := h b hb
  subst hbl
  unfold byteHex at hcl
  have h1 : b / 16 < 16 := by omega
  have h2 : b % 16 < 16 := Nat.mod_lt _ (by norm_num)
  simp only [List.mem_cons, List.not_mem_nil, or_false] at hcl
  rcases hcl with hcl | hcl
  · subst hcl; exact hexDigit_facts _ h1
  · subst hcl; exact hexDigit_facts _ h2

lemma hexDigitVal_hexDigit (n : Nat) (h : n < 16) :
    hexDigitVal (hexDigit n) = some n := by
  interval_cases n <;> rfl

lemma hexDigit_ne_space (n : Nat) (h : n < 16) : hexDigit n ≠ ' ' := by
  interval_cases n <;> decide

lemma pyFromhex_cons2 (c d : Char) (rest : List Char) (hc : c ≠ ' ') :
    pyFromhex (c :: d :: rest) =
      (match hexDigitVal c, hexDigitVal d with
       | some h, some lo => (pyFromhex rest).map (fun bs => (h * 16 + lo) :: bs)
       | _, _ => none) := by
  rw [pyFromhex.eq_def]
  split
  · rename_i heq
    cases heq
  · rename_i heq
    rw [List.cons.injEq] at heq
    exact absurd heq.1 hc
  · rename_i c2 d2 rest2 heq
    rw [List.cons.injEq, List.cons.injEq] at heq
    obtain ⟨h1, h2, h3⟩ := heq
    subst h1
    subst h2
    subst h3
    rfl
  · rename_i hne h1 h2
    exact absurd rfl (h2 c d rest)

lemma pyFromhex_bytesHex (bs : List Nat) (h : ∀ b ∈ bs, b < 256) :
    pyFromhex (bytesHex bs) = some bs := by
  induction bs with
  | nil => rfl
  | cons b t ih =>
    have hb := h b (List.mem_cons_self b t)
    have h1 : b / 16 < 16 := by omega
    have h2 : b % 16 < 16 := Nat.mod_lt _ (by norm_num)
    have hby : bytesHex (b :: t) =
        hexDigit (b / 16) :: hexDigit (b % 16) :: bytesHex t := by
      simp [bytesHex, byteHex]
    rw [hby]
    rw [pyFromhex_cons2 _ _ _ (hexDigit_ne_space _ h1)]
    rw [hexDigitVal_hexDigit _ h1, hexDigitVal_hexDigit _ h2]
    rw [ih (fun x hx => h x (List.mem_cons_of_mem b hx))]
    have hbe : b / 16 * 16 + b % 16 = b := by omega
    dsimp only [Option.map]
    rw [hbe]


/-! ## Claim C4: run decomposition -/

/-- The address/value pairs a record (base, data) stands for. -/
def pairsOf (base : Nat) : List Nat → List (Nat × Nat)
  | [] => []
  | v :: t => (base, v) :: pairsOf (base + 1) t

lemma gather16_pairs (l : List (Nat × Nat)) (base : Nat) :
    ∀ k, pairsOf (base + k) (gather16 base k l).1 ++ (gather16 base k l).2 = l := by
  induction l with
  | nil => intro k; rfl
  | cons hd t ih =>
    intro k
    obtain ⟨a, v⟩ := hd
    rw [gather16]
    by_cases hcond : a = base + k ∧ k < 16
    · rw [if_pos hcond]
      dsimp only
      rw [pairsOf]
      rw [List.cons_append]
      rw [show base + k + 1 = base + (k + 1) from rfl]
      rw [ih (k + 1)]
      rw [hcond.1]
    · rw [if_neg hcond]
      simp [pairsOf]

lemma gather16_len (l : List (Nat × Nat)) (base : Nat) :
    ∀ k, (gather16 base k l).1.length + k ≤ 16 ∨ (gather16 base k l).1 = [] := by
  induction l with
  | nil => intro k; right; rfl
  | cons hd t ih =>
    intro k
    obtain ⟨a, v⟩ := hd
    rw [gather16]
    by_cases hcond : a = base + k ∧ k < 16
    · rw [if_pos hcond]
      dsimp only
      left
      rcases ih (k + 1) with h | h
      · simpa [Nat.succ_le_iff] using by omega
      · rw [h]
        simp
        omega
    · rw [if_neg hcond]
      right
      rfl

lemma buildRuns_pairs (ms : List (Nat × Nat)) :
    ((buildRuns ms).map (fun r => pairsOf r.1 r.2)).flatten = ms := by
  induction ms using buildRuns.induct with
  | case1 =>
    rw [buildRuns]
    rfl
  | case2 a v t ih =>
    rw [buildRuns]
    rw [List.map_cons, List.flatten_cons]
    rw [ih]
    rw [pairsOf]
    rw [List.cons_append]
    have := gather16_pairs t a 1
    rw [this]

lemma buildRuns_shape (ms : List (Nat × Nat)) :
    ∀ r ∈ buildRuns ms, r.2 ≠ [] ∧ r.2.length ≤ 16 := by
  induction ms using buildRuns.induct with
  | case1 =>
    intro r hr
    rw [buildRuns] at hr
    cases hr
  | case2 a v t ih =>
    intro r hr
    rw [buildRuns] at hr
    rcases List.mem_cons.mp hr with hr | hr
    · subst hr
      refine ⟨by simp, ?_⟩
      rcases gather16_len t a 1 with h | h
      · simp only [List.length_cons]
        omega
      · rw [h]
        simp
    · exact ih r hr

lemma pairsOf_mem_val (data : List Nat) :
    ∀ base b, b ∈ data → ∃ a, (a, b) ∈ pairsOf base data := by
  induction data with
  | nil => intro base b hb; cases hb
  | cons v t ih =>
    intro base b hb
    rcases List.mem_cons.mp hb with hb | hb
    · subst hb
      exact ⟨base, List.mem_cons_self _ _⟩
    · obtain ⟨a, ha⟩ := ih (base + 1) b hb
      exact ⟨a, List.mem_cons_of_mem _ ha⟩

lemma buildRuns_pair_mem (ms : List (Nat × Nat)) (r : Nat × List Nat)
    (hr : r ∈ buildRuns ms) (p : Nat × Nat) (hp : p ∈ pairsOf r.1 r.2) :
    p ∈ ms := by
  rw [← buildRuns_pairs ms]
  rw [List.mem_flatten]
  exact ⟨pairsOf r.1 r.2, List.mem_map_of_mem _ hr, hp⟩

/-! ## Claim C4: result-dict construction -/

lemma updateANat_append_new (m : List (Nat × Nat)) (k v : Nat)
    (h : ∀ q ∈ m, q.1 ≠ k) : updateANat m k v = m ++ [(k, v)] := by
  induction m with
  | nil => rfl
  | cons q t ih =>
    obtain ⟨k2, v2⟩ := q
    rw [updateANat]
    rw [if_neg (h (k2, v2) (List.mem_cons_self _ _))]
    rw [ih (fun q hq => h q (List.mem_cons_of_mem _ hq))]
    rfl

lemma foldl_update_app (ms : List (Nat × Nat)) :
    ∀ pre : List (Nat × Nat),
    (∀ p ∈ ms, ∀ q ∈ pre, q.1 ≠ p.1) →
    List.Pairwise (fun p q : Nat × Nat => p.1 ≠ q.1) ms →
    ms.foldl (fun m p => updateANat m p.1 p.2) pre = pre ++ ms := by
  induction ms with
  | nil => intro pre _ _; simp
  | cons p t ih =>
    intro pre hds hnd
    rw [List.foldl_cons]
    rw [updateANat_append_new pre p.1 p.2
      (fun q hq => hds p (List.mem_cons_self _ _) q hq)]
    rw [List.pairwise_cons] at hnd
    rw [ih (pre ++ [p]) ?hds2 hnd.2]
    · simp
    case hds2 =>
      intro x hx q hq
      rcases List.mem_append.mp hq with hq | hq
      · exact hds x (List.mem_cons_of_mem _ hx) q hq
      · rw [List.mem_singleton] at hq
        subst hq
        exact hnd.1 x hx

lemma insertRun_eq_foldl (data : List Nat) :
    ∀ (acc : List (Nat × Nat)) (addr : Nat),
    (∀ p ∈ pairsOf addr data, p.1 < 256) →
    insertRun acc addr data =
      (pairsOf addr data).foldl (fun m p => updateANat m p.1 p.2) acc := by
  induction data with
  | nil => intro acc addr _; rfl
  | cons b bs ih =>
    intro acc addr h
    rw [insertRun, pairsOf, List.foldl_cons]
    rw [if_pos (h (addr, b) (List.mem_cons_self _ _))]
    exact ih _ (addr + 1) (fun p hp => h p (List.mem_cons_of_mem _ hp))

lemma foldl_insert_runs (rs : List (Nat × List Nat)) :
    ∀ acc : List (Nat × Nat),
    (∀ r ∈ rs, ∀ p ∈ pairsOf r.1 r.2, p.1 < 256) →
    rs.foldl (fun m r => insertRun m r.1 r.2) acc =
      ((rs.map (fun r => pairsOf r.1 r.2)).flatten).foldl
        (fun m p => updateANat m p.1 p.2) acc := by
  induction rs with
  | nil => intro acc _; rfl
  | cons r t ih =>
    intro acc h
    rw [List.foldl_cons, List.map_cons, List.flatten_cons, List.foldl_append]
    rw [insertRun_eq_foldl r.2 acc r.1 (h r (List.mem_cons_self _ _))]
    exact ih _ (fun r2 hr2 => h r2 (List.mem_cons_of_mem _ hr2))


/-! ## Claim C4: per-record parsing -/

lemma mem_of_head?A (l : List Char) (c : Char) (h : l.head? = some c) :
    c ∈ l := by
  cases l with
  | nil => cases h
  | cons a t =>
    rw [List.head?_cons, Option.some.injEq] at h
    subst h
    exact List.mem_cons_self _ _

lemma mem_of_getLast?A (l : List Char) (c : Char) (h : l.getLast? = some c) :
    c ∈ l := by
  induction l with
  | nil => cases h
  | cons a t ih =>
    cases t with
    | nil =>
      rw [show ([a] : List Char).getLast? = some a from rfl,
        Option.some.injEq] at h
      subst h
      exact List.mem_cons_self _ _
    | cons b t2 =>
      rw [List.getLast?_cons_cons] at h
      exact List.mem_cons_of_mem _ (ih h)

lemma addr16_eq (base : Nat) (hb : base < 256) :
    (((base >>> 8) % 256) <<< 8) ||| (base % 256) = base := by
  have h1 : base >>> 8 = 0 := by
    rw [Nat.shiftRight_eq_div_pow]
    exact Nat.div_eq_of_lt
      (show base < 2 ^ 8 by rw [show (2 : Nat) ^ 8 = 256 by norm_num]; exact hb)
  rw [h1, Nat.zero_mod, Nat.zero_shiftLeft, Nat.zero_or]
  exact Nat.mod_eq_of_lt hb

lemma hexRecord_all (base : Nat) (data : List Nat)
    (hlen : data.length ≤ 16) (hv : ∀ b ∈ data, b < 256) :
    ∀ b ∈ ([data.length, (base >>> 8) % 256, base % 256, 0] ++ data) ++
      [negSumMod (([data.length, (base >>> 8) % 256, base % 256, 0] ++
        data).sum)], b < 256 := by
  intro b hb2
  rcases List.mem_append.mp hb2 with h | h
  · rcases List.mem_append.mp h with h | h
    · simp only [List.mem_cons, List.not_mem_nil, or_false] at h
      rcases h with h | h | h | h <;> subst h
      · omega
      · exact Nat.mod_lt _ (by norm_num)
      · exact Nat.mod_lt _ (by norm_num)
      · norm_num
    · exact hv b h
  · simp only [List.mem_singleton] at h
    subst h
    unfold negSumMod
    omega

lemma hexRecordLine_all (base : Nat) (data : List Nat)
    (hlen : data.length ≤ 16) (hv : ∀ b ∈ data, b < 256) :
    ∀ c ∈ hexRecordLine base data,
      isPySpace c = false ∧ c ≠ '\n' ∧ c ≠ '\r' := by
  intro c hc
  unfold hexRecordLine at hc
  dsimp only at hc
  rcases List.mem_cons.mp hc with hc | hc
  · subst hc
    exact ⟨rfl, by decide, by decide⟩
  · obtain ⟨h1, h2, h3⟩ := bytesHex_chars _ (hexRecord_all base data hlen hv) c hc
    exact ⟨h3, h1, h2⟩

lemma parseHexLines_record (lineNum : Nat) (base : Nat) (data : List Nat)
    (rest : List (List Char)) (acc : List (Nat × Nat))
    (hb : base < 256) (hlen : data.length ≤ 16)
    (hv : ∀ b ∈ data, b < 256) :
    parseHexLines lineNum (hexRecordLine base data :: rest) acc =
      parseHexLines (lineNum + 1) rest (insertRun acc base data) := by
  have hall := hexRecordLine_all base data hlen hv
  have hstrip : pyStrip (hexRecordLine base data) = hexRecordLine base data :=
    pyStrip_eq_self _ (fun c hc => (hall c (mem_of_head?A _ _ hc)).1)
      (fun c hc => (hall c (mem_of_getLast?A _ _ hc)).1)
  rw [parseHexLines.eq_def]
  dsimp only
  rw [hstrip]
  rw [if_neg (show ¬ ((hexRecordLine base data).isEmpty = true) by
    unfold hexRecordLine; dsimp only; simp)]
  rw [if_neg (show ¬ ((hexRecordLine base data).headD ' ' ≠ ':') by
    unfold hexRecordLine; dsimp only; simp)]
  rw [show (hexRecordLine base data).drop 1 =
    bytesHex (([data.length, (base >>> 8) % 256, base % 256, 0] ++ data) ++
      [negSumMod (([data.length, (base >>> 8) % 256, base % 256, 0] ++
        data).sum)]) from rfl]
  rw [pyFromhex_bytesHex _ (hexRecord_all base data hlen hv)]
  dsimp only
  rw [if_neg (show ¬ ((([data.length, (base >>> 8) % 256, base % 256, 0] ++
      data) ++ [negSumMod (([data.length, (base >>> 8) % 256, base % 256, 0] ++
        data).sum)]).length < 5) by simp)]
  rw [List.dropLast_concat, List.getLast?_concat]
  rw [if_neg (by simp)]
  rw [show (List.drop 4 (([data.length, (base >>> 8) % 256, base % 256, 0] ++ data) ++
      [negSumMod (([data.length, (base >>> 8) % 256, base % 256, 0] ++
        data).sum)])) = data ++
    [negSumMod (([data.length, (base >>> 8) % 256, base % 256, 0] ++
      data).sum)] from rfl]
  rw [List.dropLast_concat]
  rw [show ((([data.length, (base >>> 8) % 256, base % 256, 0] ++ data) ++
      [negSumMod (([data.length, (base >>> 8) % 256, base % 256, 0] ++
        data).sum)])).headD 0 = data.length from rfl]
  rw [if_neg (by simp)]
  rw [show ((([data.length, (base >>> 8) % 256, base % 256, 0] ++ data) ++
      [negSumMod (([data.length, (base >>> 8) % 256, base % 256, 0] ++
        data).sum)])).getD 3 0 = 0 from rfl]
  rw [if_neg (by decide)]
  rw [if_pos rfl]
  rw [show ((([data.length, (base >>> 8) % 256, base % 256, 0] ++ data) ++
      [negSumMod (([data.length, (base >>> 8) % 256, base % 256, 0] ++
        data).sum)])).getD 1 0 = (base >>> 8) % 256 from rfl]
  rw [show ((([data.length, (base >>> 8) % 256, base % 256, 0] ++ data) ++
      [negSumMod (([data.length, (base >>> 8) % 256, base % 256, 0] ++
        data).sum)])).getD 2 0 = base % 256 from rfl]
  rw [addr16_eq base hb]


lemma parseHexLines_eof (lineNum : Nat) (acc : List (Nat × Nat)) :
    parseHexLines lineNum [chars ":00000001FF"] acc = .ok acc := rfl

lemma parseHexLines_records (rs : List (Nat × List Nat)) :
    ∀ (lineNum : Nat) (acc : List (Nat × Nat)),
    (∀ r ∈ rs, r.1 < 256 ∧ r.2.length ≤ 16 ∧ ∀ b ∈ r.2, b < 256) →
    parseHexLines lineNum
        ((rs.map (fun r => hexRecordLine r.1 r.2)) ++ [chars ":00000001FF"])
        acc =
      .ok (rs.foldl (fun m r => insertRun m r.1 r.2) acc) := by
  induction rs with
  | nil =>
    intro lineNum acc _
    exact parseHexLines_eof lineNum acc
  | cons r t ih =>
    intro lineNum acc h
    obtain ⟨hb, hlen, hv⟩ := h r (List.mem_cons_self _ _)
    rw [List.map_cons, List.cons_append]
    rw [parseHexLines_record lineNum r.1 r.2 _ acc hb hlen hv]
    rw [List.foldl_cons]
    exact ih (lineNum + 1) _ (fun x hx => h x (List.mem_cons_of_mem _ hx))

lemma buildRuns_base_lt (ms : List (Nat × Nat))
    (haddr : ∀ p ∈ ms, p.1 < 256) (r : Nat × List Nat)
    (hr : r ∈ buildRuns ms) : r.1 < 256 := by
  obtain ⟨hne0, _⟩ := buildRuns_shape ms r hr
  cases hd2 : r.2 with
  | nil => exact absurd hd2 hne0
  | cons v d =>
    have hmem : (r.1, v) ∈ pairsOf r.1 r.2 := by
      rw [hd2, pairsOf]
      exact List.mem_cons_self _ _
    exact haddr _ (buildRuns_pair_mem ms r hr _ hmem)

lemma buildRuns_vals_lt (ms : List (Nat × Nat))
    (hval : ∀ p ∈ ms, p.2 < 256) (r : Nat × List Nat)
    (hr : r ∈ buildRuns ms) : ∀ b ∈ r.2, b < 256 := by
  intro b hbm
  obtain ⟨a, hab⟩ := pairsOf_mem_val r.2 r.1 b hbm
  exact hval (a, b) (buildRuns_pair_mem ms r hr (a, b) hab)

lemma parseHex_generateHex (ms : List (Nat × Nat))
    (hsorted : List.Pairwise (fun p q : Nat × Nat => p.1 ≠ q.1) ms)
    (haddr : ∀ p ∈ ms, p.1 < 256) (hval : ∀ p ∈ ms, p.2 < 256) :
    parseHex (generateHex ms) = .ok ms := by
  unfold parseHex generateHex generateHexLines
  rw [intercalate_eq_joinNL]
  rw [pySplitlines_join _ ?hlines (by simp)]
  case hlines =>
    intro l hl
    rcases List.mem_append.mp hl with hl | hl
    · rw [List.mem_map] at hl
      obtain ⟨r, hr, hrl⟩ := hl
      subst hrl
      obtain ⟨_, hlen16⟩ := buildRuns_shape ms r hr
      have hvals := buildRuns_vals_lt ms hval r hr
      constructor
      · unfold hexRecordLine
        dsimp only
        simp
      · intro c hc
        exact ((hexRecordLine_all r.1 r.2 hlen16 hvals) c hc).2
    · rw [List.mem_singleton] at hl
      subst hl
      refine ⟨by decide, by decide⟩
  rw [parseHexLines_records (buildRuns ms) 1 [] ?hrs]
  case hrs =>
    intro r hr
    exact ⟨buildRuns_base_lt ms haddr r hr, (buildRuns_shape ms r hr).2,
      buildRuns_vals_lt ms hval r hr⟩
  rw [foldl_insert_runs _ []
    (fun r hr p hp => haddr p (buildRuns_pair_mem ms r hr p hp))]
  rw [buildRuns_pairs]
  rw [foldl_update_app ms [] (fun p _ q hq => absurd hq (List.not_mem_nil q))
    hsorted]
  rfl


/-! ## Claim C4: S-record side -/

lemma srecRecord_all (base : Nat) (data : List Nat)
    (hlen : data.length ≤ 16) (hv : ∀ b ∈ data, b < 256) :
    ∀ b ∈ (([2 + data.length + 1, (base >>> 8) % 256, base % 256] ++ data) ++
      [complSumMod (([2 + data.length + 1, (base >>> 8) % 256, base % 256] ++
        data).sum)]), b < 256 := by
  intro b hb2
  rcases List.mem_append.mp hb2 with h | h
  · rcases List.mem_append.mp h with h | h
    · simp only [List.mem_cons, List.not_mem_nil, or_false] at h
      rcases h with h | h | h <;> subst h
      · omega
      · exact Nat.mod_lt _ (by norm_num)
      · exact Nat.mod_lt _ (by norm_num)
    · exact hv b h
  · simp only [List.mem_singleton] at h
    subst h
    unfold complSumMod
    omega

lemma srecDataLine_all (base : Nat) (data : List Nat)
    (hlen : data.length ≤ 16) (hv : ∀ b ∈ data, b < 256) :
    ∀ c ∈ srecDataLine base data,
      isPySpace c = false ∧ c ≠ '\n' ∧ c ≠ '\r' := by
  intro c hc
  unfold srecDataLine at hc
  dsimp only at hc
  rcases List.mem_cons.mp hc with hc | hc
  · subst hc
    exact ⟨rfl, by decide, by decide⟩
  · rcases List.mem_cons.mp hc with hc | hc
    · subst hc
      exact ⟨rfl, by decide, by decide⟩
    · obtain ⟨h1, h2, h3⟩ :=
        bytesHex_chars _ (srecRecord_all base data hlen hv) c hc
      exact ⟨h3, h1, h2⟩

lemma parseSrecLines_record (lineNum : Nat) (base : Nat) (data : List Nat)
    (rest : List (List Char)) (acc : List (Nat × Nat))
    (hb : base < 256) (hlen : data.length ≤ 16)
    (hv : ∀ b ∈ data, b < 256) :
    parseSrecLines lineNum (srecDataLine base data :: rest) acc =
      parseSrecLines (lineNum + 1) rest (insertRun acc base data) := by
  have hall := srecDataLine_all base data hlen hv
  have hstrip : pyStrip (srecDataLine base data) = srecDataLine base data :=
    pyStrip_eq_self _ (fun c hc => (hall c (mem_of_head?A _ _ hc)).1)
      (fun c hc => (hall c (mem_of_getLast?A _ _ hc)).1)
  rw [parseSrecLines.eq_def]
  dsimp only
  rw [hstrip]
  rw [if_neg (show ¬ ((srecDataLine base data).isEmpty = true) by
    unfold srecDataLine; dsimp only; simp)]
  rw [if_neg (show ¬ ((srecDataLine base data).headD ' ' ≠ 'S') by
    unfold srecDataLine; dsimp only; simp)]
  rw [if_neg (show ¬ ((srecDataLine base data).length < 2) by
    unfold srecDataLine; dsimp only; simp)]
  rw [show (srecDataLine base data).getD 1 ' ' = '1' from rfl]
  rw [show (srecDataLine base data).drop 2 = bytesHex (([2 + data.length + 1, (base >>> 8) % 256, base % 256] ++ data) ++
      [complSumMod (([2 + data.length + 1, (base >>> 8) % 256, base % 256] ++
        data).sum)]) from rfl]
  rw [pyFromhex_bytesHex _ (srecRecord_all base data hlen hv)]
  dsimp only
  rw [if_neg (show ¬ (((([2 + data.length + 1, (base >>> 8) % 256, base % 256] ++ data) ++
      [complSumMod (([2 + data.length + 1, (base >>> 8) % 256, base % 256] ++
        data).sum)])).length < 1) by simp)]
  rw [show ((([2 + data.length + 1, (base >>> 8) % 256, base % 256] ++ data) ++
      [complSumMod (([2 + data.length + 1, (base >>> 8) % 256, base % 256] ++
        data).sum)])).headD 0 = 2 + data.length + 1 from rfl]
  rw [if_neg (show ¬ (((([2 + data.length + 1, (base >>> 8) % 256, base % 256] ++ data) ++
      [complSumMod (([2 + data.length + 1, (base >>> 8) % 256, base % 256] ++
        data).sum)])).length ≠ 2 + data.length + 1 + 1) by
    simp
    omega)]
  rw [List.dropLast_concat, List.getLast?_concat]
  rw [if_neg (by simp)]
  rw [if_neg (show ¬ (('1' : Char) = '0') by decide)]
  rw [if_pos rfl]
  rw [show (List.drop 3 (([2 + data.length + 1, (base >>> 8) % 256, base % 256] ++ data) ++
      [complSumMod (([2 + data.length + 1, (base >>> 8) % 256, base % 256] ++
        data).sum)])) = data ++
    [complSumMod (([2 + data.length + 1, (base >>> 8) % 256, base % 256] ++
      data).sum)] from rfl]
  rw [List.dropLast_concat]
  rw [show ((([2 + data.length + 1, (base >>> 8) % 256, base % 256] ++ data) ++
      [complSumMod (([2 + data.length + 1, (base >>> 8) % 256, base % 256] ++
        data).sum)])).getD 1 0 = (base >>> 8) % 256 from rfl]
  rw [show ((([2 + data.length + 1, (base >>> 8) % 256, base % 256] ++ data) ++
      [complSumMod (([2 + data.length + 1, (base >>> 8) % 256, base % 256] ++
        data).sum)])).getD 2 0 = base % 256 from rfl]
  rw [addr16_eq base hb]

lemma parseSrecLines_end (lineNum : Nat) (acc : List (Nat × Nat)) :
    parseSrecLines lineNum [srecEndLine] acc = .ok acc := rfl

lemma parseSrecLines_header (lineNum : Nat) (rest : List (List Char))
    (acc : List (Nat × Nat)) :
    parseSrecLines lineNum (srecHeaderLine :: rest) acc =
      parseSrecLines (lineNum + 1) rest acc := rfl

lemma parseSrecLines_records (rs : List (Nat × List Nat)) :
    ∀ (lineNum : Nat) (acc : List (Nat × Nat)),
    (∀ r ∈ rs, r.1 < 256 ∧ r.2.length ≤ 16 ∧ ∀ b ∈ r.2, b < 256) →
    parseSrecLines lineNum
        ((rs.map (fun r => srecDataLine r.1 r.2)) ++ [srecEndLine]) acc =
      .ok (rs.foldl (fun m r => insertRun m r.1 r.2) acc) := by
  induction rs with
  | nil =>
    intro lineNum acc _
    exact parseSrecLines_end lineNum acc
  | cons r t ih =>
    intro lineNum acc h
    obtain ⟨hb, hlen, hv⟩ := h r (List.mem_cons_self _ _)
    rw [List.map_cons, List.cons_append]
    rw [parseSrecLines_record lineNum r.1 r.2 _ acc hb hlen hv]
    rw [List.foldl_cons]
    exact ih (lineNum + 1) _ (fun x hx => h x (List.mem_cons_of_mem _ hx))

lemma parseSrec_generateSrec (ms : List (Nat × Nat))
    (hsorted : List.Pairwise (fun p q : Nat × Nat => p.1 ≠ q.1) ms)
    (haddr : ∀ p ∈ ms, p.1 < 256) (hval : ∀ p ∈ ms, p.2 < 256) :
    parseSrec (generateSrec ms) = .ok ms := by
  unfold parseSrec generateSrec generateSrecLines
  rw [intercalate_eq_joinNL]
  rw [pySplitlines_join _ ?hlines (by simp)]
  case hlines =>
    intro l hl
    rcases List.mem_cons.mp hl with hl | hl
    · subst hl
      refine ⟨by decide, by decide⟩
    rcases List.mem_append.mp hl with hl | hl
    · rw [List.mem_map] at hl
      obtain ⟨r, hr, hrl⟩ := hl
      subst hrl
      obtain ⟨_, hlen16⟩ := buildRuns_shape ms r hr
      have hvals := buildRuns_vals_lt ms hval r hr
      constructor
      · unfold srecDataLine
        dsimp only
        simp
      · intro c hc
        exact ((srecDataLine_all r.1 r.2 hlen16 hvals) c hc).2
    · rw [List.mem_singleton] at hl
      subst hl
      refine ⟨by decide, by decide⟩
  rw [List.cons_append]
  rw [parseSrecLines_header 1
    (List.map (fun r => srecDataLine r.1 r.2) (buildRuns ms) ++ [srecEndLine])
    []]
  rw [parseSrecLines_records (buildRuns ms) 2 [] ?hrs]
  case hrs =>
    intro r hr
    exact ⟨buildRuns_base_lt ms haddr r hr, (buildRuns_shape ms r hr).2,
      buildRuns_vals_lt ms hval r hr⟩
  rw [foldl_insert_runs _ []
    (fun r hr p hp => haddr p (buildRuns_pair_mem ms r hr p hp))]
  rw [buildRuns_pairs]
  rw [foldl_update_app ms [] (fun p _ q hq => absurd hq (List.not_mem_nil q))
    hsorted]
  rfl


/-- C4: for every byte map with addresses in [0,255] — canonically a
strictly ascending association list of address/value pairs, which is how
the generators see `sorted(memory_map.items())` — decoding the generated
object file reproduces the map exactly for both codecs:
parse_hex (generate_hex m) = m and parse_srec (generate_srec m) = m. -/
theorem claim_C4_roundtrip (ms : List (Nat × Nat))
    (hsorted : List.Pairwise (fun p q : Nat × Nat => p.1 < q.1) ms)
    (haddr : ∀ p ∈ ms, p.1 < 256) (hval : ∀ p ∈ ms, p.2 < 256) :
    parseHex (generateHex ms) = .ok ms ∧
      parseSrec (generateSrec ms) = .ok ms :=
  have hne : List.Pairwise (fun p q : Nat × Nat => p.1 ≠ q.1) ms :=
    hsorted.imp (fun h => Nat.ne_of_lt h)
  ⟨parseHex_generateHex ms hne haddr hval,
   parseSrec_generateSrec ms hne haddr hval⟩

theorem claim_C4_witness :
    parseHex (generateHex [(0, 170), (5, 187)]) = .ok [(0, 170), (5, 187)] ∧
    parseSrec (generateSrec [(0, 170), (5, 187)]) =
      .ok [(0, 170), (5, 187)] :=
  claim_C4_roundtrip [(0, 170), (5, 187)] (by decide) (by decide) (by decide)

end EduCpu
